import Mathlib

/-!
# ESP32MCPServer: the metrics system

A shallow embedding of `src/MetricsSystem.cpp`.

* The object state (`metrics`, `bootMetrics`, `logger`, `lastSaveTime`,
  `initialized`) is a record that every member function takes and returns.
* `millis()` is an input: each member function that reads the clock takes the
  reading as its argument `now`.
* `double` is modelled by `Rat`, `int64_t` by `Int` reduced into the signed 64-bit
  range after every addition.
* `std::map<String, V>` is an association list; `find`, `operator[]`, `size`
  are the functions `mapFind`, `mapIndex` and `mapInsert`, `mapSize`.
* `metricsMutex` is a plain `std::mutex`. A member function called by a thread
  that does not hold it takes it and gives it back, which leaves no trace in
  the data: `registerMetric`, `incrementCounter`, `setGauge`,
  `recordHistogram`, `getMetric`, `saveBootMetrics` and `loadBootMetrics` are
  given as such calls. A member function that holds the lock and calls one
  that takes it (`resetBootMetrics`, `clearHistory`, `updateSystemMetrics`)
  does not get past that call: its result is a `Run`, and `lockGuard` is the
  guard at its head.
* `LittleFS` is one optional file `/boot_metrics.bin`, passed to and returned
  by the member functions that open it; what the file system does on a write
  is the argument `out`.
* Where rounding decides, lines 155-164 and 210-231 are also given in `double`
  arithmetic (`recordIntoDouble`, `calculateHistogramDouble`): a finite
  `double` is the rational it stands for, and `roundDouble` rounds the exact
  result of `+` and `/` to the nearest `double`, ties to even.
-/

namespace Esp32Mcp

/-! ## Data model -/

/-- The cap on the number of registered metrics (`MAX_METRICS`, line 11). -/
def MAX_METRICS : Nat := 50

/-- The three kinds of metric (`MetricType`). -/
inductive MetricType where
  | COUNTER
  | GAUGE
  | HISTOGRAM
deriving DecidableEq, Repr

/-- A catalog entry (`MetricInfo`, lines 87-90). -/
structure MetricInfo where
  name : String
  type : MetricType
  description : String
deriving DecidableEq, Repr

/-- Modelled from the spec: the declaration of the `histogram` member of
`MetricValue` is in `MetricsSystem.h`, which is not among the sources. Section 3
gives it as four floating-point fields `value`, `min`, `max`, `sum` and an
unsigned integer `count` of no stated width; the initialisers at lines 103 and
166 (four doubles, then an integer) agree. -/
structure Histogram where
  value : Rat
  min : Rat
  max : Rat
  sum : Rat
  count : Nat
deriving DecidableEq, Repr

/-- Modelled from the spec: the union inside `MetricValue` (declared in
`MetricsSystem.h`, not among the sources) as a sum type over its three members
`counter`, `gauge`, `histogram` (section 3), with `zeroed` for the
value-initialised union `{}` of lines 94, 175, 187, 190 that no member has
been written to. -/
inductive Payload where
  | zeroed
  | counter (c : Int)
  | gauge (g : Rat)
  | histogram (h : Histogram)
deriving DecidableEq, Repr

/-- A stored or logged value (`MetricValue`): a clock reading and the union. -/
structure MetricValue where
  timestamp : Nat
  payload : Payload
deriving DecidableEq, Repr

/-- The histogram initialiser `{0.0, 0.0, 0.0, 0.0, 0}` (lines 103, 211, 342). -/
def Histogram.zero : Histogram :=
  { value := 0, min := 0, max := 0, sum := 0, count := 0 }

/-- The value-initialised `MetricValue{}` (lines 175, 187): timestamp 0 and an
all-zero union. -/
def MetricValue.zero : MetricValue :=
  { timestamp := 0, payload := Payload.zeroed }

/-- Reading the member `counter` of the union. The all-zero union reads as 0;
reading a union whose last written member is another one is not defined by the
language and is given the value 0 here. -/
def MetricValue.counter (v : MetricValue) : Int :=
  match v.payload with
  | Payload.counter c => c
  | _ => 0

/-- Reading the member `gauge` of the union (see `MetricValue.counter`). -/
def MetricValue.gauge (v : MetricValue) : Rat :=
  match v.payload with
  | Payload.gauge g => g
  | _ => 0

/-- Reading the member `histogram` of the union (see `MetricValue.counter`). -/
def MetricValue.histogram (v : MetricValue) : Histogram :=
  match v.payload with
  | Payload.histogram h => h
  | _ => Histogram.zero

/-- Reduction of an integer into the range of `int64_t`. -/
def wrapInt64 (x : Int) : Int :=
  (x + 2 ^ 63) % 2 ^ 64 - 2 ^ 63

/-- The values an `int64_t` can hold. -/
def inInt64 (x : Int) : Prop :=
  -(2 ^ 63) ≤ x ∧ x < 2 ^ 63

instance (x : Int) : Decidable (inInt64 x) := by
  unfold inInt64; infer_instance

/-- The function `std::min(a, b)`: `b` when `b < a`, else `a`. -/
def stdMin (a b : Rat) : Rat :=
  if b < a then b else a

/-- The function `std::max(a, b)`: `b` when `a < b`, else `a`. -/
def stdMax (a b : Rat) : Rat :=
  if a < b then b else a

/-! ## `std::map` -/

/-- The call `m.find(key)`: the value stored under `key`, if any. -/
def mapFind {V : Type} : List (String × V) → String → Option V
  | [], _ => none
  | (k, v) :: rest, key => if k = key then some v else mapFind rest key

/-- The assignment `m[key] = val`: overwrite the entry of `key`, or add one. -/
def mapInsert {V : Type} : List (String × V) → String → V → List (String × V)
  | [], key, val => [(key, val)]
  | (k, v) :: rest, key, val =>
    if k = key then (k, val) :: rest else (k, v) :: mapInsert rest key val

/-- The call `m.size()`. -/
def mapSize {V : Type} (m : List (String × V)) : Nat :=
  m.length

/-- The key set of a map, in storage order. -/
def mapKeys {V : Type} (m : List (String × V)) : List String :=
  m.map Prod.fst

/-- The value that `bootMetrics[key]` refers to: the stored one, or the
value-initialised `MetricValue{}` that `operator[]` creates for a new key. -/
def mapIndex (m : List (String × MetricValue)) (key : String) : MetricValue :=
  match mapFind m key with
  | some v => v
  | none => MetricValue.zero

/-- The map after evaluating `bootMetrics[key]` without assigning to it:
`operator[]` adds a value-initialised entry when `key` is new. -/
def mapTouch (m : List (String × MetricValue)) (key : String) :
    List (String × MetricValue) :=
  match mapFind m key with
  | some _ => m
  | none => mapInsert m key MetricValue.zero

/-! ## The time-series sink -/

/-- Modelled from the spec: `logger.logMetric` belongs to the logger class, which
is not among the sources. Section 6: it appends one sample keyed by name. -/
def logMetric (log : List (String × MetricValue)) (name : String)
    (v : MetricValue) : List (String × MetricValue) :=
  log ++ [(name, v)]

/-- Modelled from the spec: `logger.queryMetrics(name, 0, values)` belongs to the
logger class, which is not among the sources. Section 6: with 0 for "all time"
it fills `values` with the samples of `name` in the order they were appended. -/
def queryMetrics (log : List (String × MetricValue)) (name : String) :
    List MetricValue :=
  (log.filter (fun e => decide (e.1 = name))).map Prod.snd

/-! ## The object state -/

/-- The data members of `MetricsSystem`: the catalog `metrics`, the boot
snapshot `bootMetrics`, the contents of the sink `logger`, and the two members
set by the constructor (lines 16-19). -/
structure MetricsSystem where
  metrics : List (String × MetricInfo)
  bootMetrics : List (String × MetricValue)
  logger : List (String × MetricValue)
  lastSaveTime : Nat
  initialized : Bool
deriving DecidableEq, Repr

namespace MetricsSystem

/-- The state the constructor leaves (lines 16-19), with empty maps and sink. -/
def new : MetricsSystem :=
  { metrics := [], bootMetrics := [], logger := [],
    lastSaveTime := 0, initialized := false }

/-- The switch of lines 95-105: the zero of each type. -/
def zeroPayload : MetricType → Payload
  | MetricType.COUNTER => Payload.counter 0
  | MetricType.GAUGE => Payload.gauge 0
  | MetricType.HISTOGRAM => Payload.histogram Histogram.zero

/-- The member function `registerMetric` (lines 79-107). -/
def registerMetric (st : MetricsSystem) (name : String) (type : MetricType)
    (description : String) (now : Nat) : MetricsSystem :=
  if mapSize st.metrics ≥ MAX_METRICS then st
  else
    let info : MetricInfo := { name := name, type := type, description := description }
    let value : MetricValue := { timestamp := now, payload := zeroPayload type }
    { st with
      metrics := mapInsert st.metrics name info
      bootMetrics := mapInsert st.bootMetrics name value }

/-- The test of lines 124-125, 137-138, 150-151: the name is in the catalog with
the given type. -/
def hasType (st : MetricsSystem) (name : String) (type : MetricType) : Bool :=
  match mapFind st.metrics name with
  | some info => decide (info.type = type)
  | none => false

/-- The member function `incrementCounter` (lines 121-132). -/
def incrementCounter (st : MetricsSystem) (name : String) (value : Int)
    (now : Nat) : MetricsSystem :=
  if hasType st name MetricType.COUNTER then
    let old := mapIndex st.bootMetrics name
    let entry : MetricValue :=
      { old with payload := Payload.counter (wrapInt64 (old.counter + value)) }
    let metric : MetricValue := { timestamp := now, payload := Payload.counter value }
    { st with
      bootMetrics := mapInsert st.bootMetrics name entry
      logger := logMetric st.logger name metric }
  else st

/-- The member function `setGauge` (lines 134-145). -/
def setGauge (st : MetricsSystem) (name : String) (value : Rat)
    (now : Nat) : MetricsSystem :=
  if hasType st name MetricType.GAUGE then
    let old := mapIndex st.bootMetrics name
    let entry : MetricValue := { old with payload := Payload.gauge value }
    let metric : MetricValue := { timestamp := now, payload := Payload.gauge value }
    { st with
      bootMetrics := mapInsert st.bootMetrics name entry
      logger := logMetric st.logger name metric }
  else st

/-- Lines 155-164: the accumulator after one more observation. -/
def recordInto (hist : Histogram) (value : Rat) : Histogram :=
  let lo := if hist.count = 0 then value else stdMin hist.min value
  let hi := if hist.count = 0 then value else stdMax hist.max value
  let sum := hist.sum + value
  let count := hist.count + 1
  { value := sum / count, min := lo, max := hi, sum := sum, count := count }

/-- The member function `recordHistogram` (lines 147-168). -/
def recordHistogram (st : MetricsSystem) (name : String) (value : Rat)
    (now : Nat) : MetricsSystem :=
  if hasType st name MetricType.HISTOGRAM then
    let old := mapIndex st.bootMetrics name
    let entry : MetricValue :=
      { old with payload := Payload.histogram (recordInto old.histogram value) }
    let metric : MetricValue :=
      { timestamp := now,
        payload := Payload.histogram
          { value := value, min := value, max := value, sum := value, count := 1 } }
    { st with
      bootMetrics := mapInsert st.bootMetrics name entry
      logger := logMetric st.logger name metric }
  else st

/-- The loop of lines 223-227 on the fields `min`, `max`, `sum`. -/
def histogramLoop (hist : Histogram) : List MetricValue → Histogram
  | [] => hist
  | v :: rest =>
    histogramLoop
      { hist with
        min := stdMin hist.min v.histogram.value
        max := stdMax hist.max v.histogram.value
        sum := hist.sum + v.histogram.value } rest

/-- The member function `calculateHistogram` (lines 210-231). -/
def calculateHistogram (values : List MetricValue) (now : Nat) : MetricValue :=
  match values with
  | [] => { timestamp := now, payload := Payload.histogram Histogram.zero }
  | v0 :: _ =>
    let start : Histogram :=
      { value := 0, min := v0.histogram.value, max := v0.histogram.value,
        sum := 0, count := values.length }
    let hist := histogramLoop start values
    { timestamp := now,
      payload := Payload.histogram { hist with value := hist.sum / hist.count } }

/-- The loop of lines 194-196: the running `int64_t` sum of the samples. -/
def counterLoop (acc : Int) : List MetricValue → Int
  | [] => acc
  | v :: rest => counterLoop (wrapInt64 (acc + v.counter)) rest

/-- The member function `getMetric` (lines 170-208): the value returned, and the
state after the call (`bootMetrics[name]` at line 179 adds an entry when the
name is new to the boot snapshot). `now` is the clock reading that the result
carries (line 190, or line 211 for a histogram). -/
def getMetric (st : MetricsSystem) (name : String) (fromBoot : Bool)
    (now : Nat) : MetricValue × MetricsSystem :=
  match mapFind st.metrics name with
  | none => (MetricValue.zero, st)
  | some info =>
    if fromBoot then
      (mapIndex st.bootMetrics name,
        { st with bootMetrics := mapTouch st.bootMetrics name })
    else
      let values := queryMetrics st.logger name
      if values.isEmpty then (MetricValue.zero, st)
      else
        match info.type with
        | MetricType.COUNTER =>
          ({ timestamp := now, payload := Payload.counter (counterLoop 0 values) }, st)
        | MetricType.GAUGE =>
          (values.getLast?.getD MetricValue.zero, st)
        | MetricType.HISTOGRAM =>
          (calculateHistogram values now, st)

end MetricsSystem

end Esp32Mcp

namespace Esp32Mcp

open MetricsSystem

/-! ## Call sequences -/

/-- The calls `incrementCounter(name, d)` for each `(d, now)` of a list, in order. -/
def incrementAll (st : MetricsSystem) (name : String) :
    List (Int × Nat) → MetricsSystem
  | [] => st
  | (d, now) :: rest => incrementAll (st.incrementCounter name d now) name rest

/-- The calls `setGauge(name, g)` for each `(g, now)` of a list, in order. -/
def setAll (st : MetricsSystem) (name : String) :
    List (Rat × Nat) → MetricsSystem
  | [] => st
  | (g, now) :: rest => setAll (st.setGauge name g now) name rest

/-- The calls `recordHistogram(name, v)` for each `(v, now)` of a list, in order. -/
def recordAll (st : MetricsSystem) (name : String) :
    List (Rat × Nat) → MetricsSystem
  | [] => st
  | (v, now) :: rest => recordAll (st.recordHistogram name v now) name rest

/-- The state after `registerMetric(name, HISTOGRAM, description)` at time `t0`
and then the calls `recordHistogram(name, v)` of a list. -/
def recorded (st : MetricsSystem) (name description : String) (t0 : Nat)
    (calls : List (Rat × Nat)) : MetricsSystem :=
  recordAll (st.registerMetric name MetricType.HISTOGRAM description t0) name calls

/-- The state after `registerMetric(name, GAUGE, description)` at time `t0` and
then the calls `setGauge(name, g)` of a list. -/
def gauged (st : MetricsSystem) (name description : String) (t0 : Nat)
    (calls : List (Rat × Nat)) : MetricsSystem :=
  setAll (st.registerMetric name MetricType.GAUGE description t0) name calls

/-- The calls `registerMetric(name, type, description)` for each
`(name, type, description, now)` of a list, in order. -/
def registerAll (st : MetricsSystem) :
    List (String × MetricType × String × Nat) → MetricsSystem
  | [] => st
  | (name, type, description, now) :: rest =>
    registerAll (st.registerMetric name type description now) rest

/-- The registrations of the `n` counters `m0`, `m1`, ..., at the times 0, 1, ... -/
def counterRegistrations (n : Nat) : List (String × MetricType × String × Nat) :=
  (List.range n).map (fun i => ("m" ++ toString i, MetricType.COUNTER, "a counter", i))

/-- A state with a full catalog: the counters `m0 .. m49` registered on a new
object, and then `incrementCounter("m0", 5)` at time 50. -/
def fullState : MetricsSystem :=
  (registerAll MetricsSystem.new (counterRegistrations 50)).incrementCounter "m0" 5 50

/-- The sample that `incrementCounter(name, d)` hands to the sink at time `now`. -/
def counterSample (c : Int × Nat) : MetricValue :=
  { timestamp := c.2, payload := Payload.counter c.1 }

/-- The sample that `setGauge(name, g)` hands to the sink at time `now`. -/
def gaugeSample (c : Rat × Nat) : MetricValue :=
  { timestamp := c.2, payload := Payload.gauge c.1 }

/-- The sample that `recordHistogram(name, v)` hands to the sink at time `now`. -/
def histogramSample (c : Rat × Nat) : MetricValue :=
  { timestamp := c.2,
    payload := Payload.histogram
      { value := c.1, min := c.1, max := c.1, sum := c.1, count := 1 } }

/-! ## The boot-metrics file -/

/-- The save interval in milliseconds (`SAVE_INTERVAL`, line 10). -/
def SAVE_INTERVAL : Nat := 60000

/-- What a reader finds in `/boot_metrics.bin`. `document` is what
`deserializeJson` delivers at line 300: the pairs of the root object as
`(name, type, description)`, or `none` when it reports an error (the type
numbers are taken to be those of the three enumerators, as line 269 writes
them). `block` tells whether bytes follow the document, that is, whether the
`file.read` of line 318 returns a non-zero count. -/
structure BootFile where
  document : Option (List (String × MetricType × String))
  block : Bool
deriving DecidableEq, Repr

/-- How far a call of `saveBootMetrics` gets with the file system: `LittleFS.open`
fails (line 258), `serializeJson` returns 0 (line 273), `file.write` returns 0
(line 280), or all three succeed. -/
inductive SaveOutcome where
  | openFails
  | jsonFails
  | writeFails
  | saved
deriving DecidableEq, Repr

/-- The environment values that `updateSystemMetrics` reads (lines 237-243):
`WiFi.status() == WL_CONNECTED`, `WiFi.RSSI()`, `ESP.getFreeHeap()` and
`ESP.getMinFreeHeap()`. -/
structure SystemReadings where
  connected : Bool
  rssi : Int
  freeHeap : Nat
  minFreeHeap : Nat
deriving DecidableEq, Repr

/-- The difference `a - b` of two `uint32_t` values. -/
def uint32Sub (a b : Nat) : Nat :=
  (a % 2 ^ 32 + 2 ^ 32 - b % 2 ^ 32) % 2 ^ 32

/-- How a call of a member function ends: it returns, or the calling thread
waits for ever for `metricsMutex`, which it holds itself. `state` is what the
object and the file hold at the return, or from the moment the thread waits. -/
inductive Run (σ : Type) where
  | returned (state : σ)
  | blocked (state : σ)
deriving DecidableEq, Repr

/-- What the object and the file hold when the call has ended. -/
def Run.state {σ : Type} : Run σ → σ
  | Run.returned s => s
  | Run.blocked s => s

/-- The statements after a call: they run when the call returns. -/
def Run.andThen {σ : Type} (r : Run σ) (next : σ → Run σ) : Run σ :=
  match r with
  | Run.returned s => next s
  | Run.blocked s => Run.blocked s

/-- Modelled from the spec: `logger.clear()` belongs to the logger class, which is
not among the sources. Section 6: it drops all retained samples. -/
def clearLog (_log : List (String × MetricValue)) : List (String × MetricValue) :=
  []

/-- The integer nearest to `n / d`, the even one of two that are equally near. -/
def roundHalfEven (n d : Nat) : Nat :=
  if 2 * (n % d) < d then n / d
  else if d < 2 * (n % d) then n / d + 1
  else if (n / d) % 2 = 0 then n / d else n / d + 1

/-- The number of binary digits of `n`, with `fuel` at least that number. -/
def bitLength : Nat → Nat → Nat
  | 0, _ => 0
  | fuel + 1, n => if n = 0 then 0 else bitLength fuel (n / 2) + 1

/-- The integer `k` with `2 ^ k ≤ n / d < 2 ^ (k + 1)`, for positive `n` and `d`. -/
def floorLog2 (n d : Nat) : Int :=
  let k : Int := (bitLength n n : Int) - (bitLength d d : Int)
  if 0 ≤ k then (if d * 2 ^ k.toNat ≤ n then k else k - 1)
  else (if d ≤ n * 2 ^ (-k).toNat then k else k - 1)

/-- Rounding of an exact result to `double` (IEEE 754 binary64, round to nearest,
ties to even): 53 significant bits, and no exponent below that of the
subnormal numbers. Results beyond the largest finite `double`, which the
machine turns into an infinity, are outside this model. -/
def roundDouble (x : Rat) : Rat :=
  if x.num = 0 then 0
  else
    let n := x.num.natAbs
    let d := x.den
    let e : Int := max (floorLog2 n d) (-1022) - 52
    let m : Nat :=
      if 0 ≤ e then roundHalfEven n (d * 2 ^ e.toNat)
      else roundHalfEven (n * 2 ^ (-e).toNat) d
    let r : Rat :=
      if 0 ≤ e then ((m * 2 ^ e.toNat : Nat) : Rat) else mkRat m (2 ^ (-e).toNat)
    if x.num < 0 then -r else r

/-- The union member that was written last, if any. -/
def Payload.type : Payload → Option MetricType
  | Payload.zeroed => none
  | Payload.counter _ => some MetricType.COUNTER
  | Payload.gauge _ => some MetricType.GAUGE
  | Payload.histogram _ => some MetricType.HISTOGRAM

namespace MetricsSystem

/-- The member function `initializeSystemMetrics` (lines 65-77), through the
wrappers `registerCounter`, `registerGauge`, `registerHistogram` (lines 109-119). -/
def initializeSystemMetrics (st : MetricsSystem) (now : Nat) : MetricsSystem :=
  let s1 := st.registerMetric "system.requests.total" MetricType.COUNTER
    "Total handled requests" now
  let s2 := s1.registerMetric "system.requests.errors" MetricType.COUNTER
    "Request errors" now
  let s3 := s2.registerMetric "system.requests.timeouts" MetricType.COUNTER
    "Request timeouts" now
  let s4 := s3.registerMetric "system.requests.duration" MetricType.HISTOGRAM
    "Request handling duration (ms)" now
  let s5 := s4.registerMetric "system.heap.free" MetricType.GAUGE
    "Free heap memory" now
  let s6 := s5.registerMetric "system.heap.min" MetricType.GAUGE
    "Minimum free heap memory" now
  let s7 := s6.registerMetric "system.wifi.signal" MetricType.GAUGE
    "WiFi signal strength (dBm)" now
  s7.registerMetric "system.uptime" MetricType.GAUGE "System uptime (ms)" now

/-- The pairs that the loop of lines 267-271 puts into the document: one per
catalog entry, in the order in which `std::map` lists its keys. -/
def documentOfCatalog (catalog : List (String × MetricInfo)) :
    List (String × MetricType × String) :=
  (catalog.insertionSort (fun a b => a.1 ≤ b.1)).map
    (fun e => (e.1, e.2.type, e.2.description))

/-- The member function `saveBootMetrics` (lines 254-288), called by a thread that
does not hold the lock: the value returned and the file afterwards. Opening
for writing empties the file. The document is that of `documentOfCatalog`
when its 2048 bytes hold every pair; what ArduinoJson leaves out of a document
that is full is not modelled. The block is the raw image of the `bootMetrics`
object, of which the file model records only that it is there. -/
def saveBootMetrics (st : MetricsSystem) (file : Option BootFile) :
    SaveOutcome → Bool × Option BootFile
  | SaveOutcome.openFails => (false, file)
  | SaveOutcome.jsonFails => (false, some { document := none, block := false })
  | SaveOutcome.writeFails =>
    (false, some { document := some (documentOfCatalog st.metrics), block := false })
  | SaveOutcome.saved =>
    (true, some { document := some (documentOfCatalog st.metrics), block := true })

/-- The loop of lines 309-315: the catalog built from the pairs of the document. -/
def catalogOfDocument :
    List (String × MetricInfo) → List (String × MetricType × String) →
      List (String × MetricInfo)
  | m, [] => m
  | m, (name, type, description) :: rest =>
    catalogOfDocument
      (mapInsert m name { name := name, type := type, description := description }) rest

/-- The member function `loadBootMetrics` (lines 290-326): the value returned and
the state afterwards. `raw` is the map that the `bootMetrics` object holds once
line 318 has read the block over it; it depends on the memory layout of
`std::map` and is an input here. -/
def loadBootMetrics (st : MetricsSystem) (file : Option BootFile)
    (raw : List (String × MetricValue)) : Bool × MetricsSystem :=
  match file with
  | none => (false, st)
  | some f =>
    match f.document with
    | none => (false, st)
    | some pairs =>
      let st1 := { st with metrics := catalogOfDocument [] pairs }
      if f.block then (true, { st1 with bootMetrics := raw })
      else (false, st1)

/-- The loop of lines 332-346: one zero entry per catalog entry. -/
def resetLoop (now : Nat) :
    List (String × MetricValue) → List (String × MetricInfo) →
      List (String × MetricValue)
  | boot, [] => boot
  | boot, (name, info) :: rest =>
    resetLoop now
      (mapInsert boot name { timestamp := now, payload := zeroPayload info.type }) rest

/-- The lines 331-348 of `resetBootMetrics` as they run when the lock that
`saveBootMetrics` asks for at line 255 is granted: the state and the file
afterwards. The value of `saveBootMetrics` is dropped. -/
def resetBootMetricsGranted (st : MetricsSystem) (file : Option BootFile) (now : Nat)
    (out : SaveOutcome) : MetricsSystem × Option BootFile :=
  let st1 := { st with bootMetrics := resetLoop now [] st.metrics }
  (st1, (st1.saveBootMetrics file out).2)

/-- The lines 357-358 of `clearHistory` as they run when the locks of lines 329
and 255 are granted. -/
def clearHistoryGranted (st : MetricsSystem) (file : Option BootFile) (now : Nat)
    (out : SaveOutcome) : MetricsSystem × Option BootFile :=
  resetBootMetricsGranted { st with logger := clearLog st.logger } file now out

/-- The guard `std::lock_guard<std::mutex> lock(metricsMutex)` at the head of a
member function that goes on as `body`. `held` tells whether the calling thread
holds `metricsMutex` already: a plain `std::mutex` is not recursive, so the
thread then waits for itself and the data stay as they are at `s`. -/
def lockGuard {σ : Type} (held : Bool) (s : σ) (body : Run σ) : Run σ :=
  if held then Run.blocked s else body

/-- A call of `setGauge` (lines 134-145) by a thread that holds the lock or not. -/
def setGaugeCall (held : Bool) (s : MetricsSystem × Option BootFile) (name : String)
    (value : Rat) (now : Nat) : Run (MetricsSystem × Option BootFile) :=
  lockGuard held s (Run.returned (s.1.setGauge name value now, s.2))

/-- A call of `saveBootMetrics` (lines 254-288) by a thread that holds the lock or
not, its value dropped. -/
def saveBootMetricsCall (held : Bool) (s : MetricsSystem × Option BootFile)
    (out : SaveOutcome) : Run (MetricsSystem × Option BootFile) :=
  lockGuard held s (Run.returned (s.1, (s.1.saveBootMetrics s.2 out).2))

/-- The member function `resetBootMetrics` (lines 328-349), called by a thread
that holds the lock or not: it takes the lock at line 329, rebuilds the boot
snapshot, and calls `saveBootMetrics` at line 348 with the lock held. -/
def resetBootMetrics (st : MetricsSystem) (held : Bool) (file : Option BootFile)
    (now : Nat) (out : SaveOutcome) : Run (MetricsSystem × Option BootFile) :=
  lockGuard held (st, file)
    (saveBootMetricsCall true
      ({ st with bootMetrics := resetLoop now [] st.metrics }, file) out)

/-- The member function `clearHistory` (lines 355-359), called by a thread that
holds the lock or not: it takes the lock at line 356, clears the sink, and
calls `resetBootMetrics` at line 358 with the lock held. -/
def clearHistory (st : MetricsSystem) (held : Bool) (file : Option BootFile)
    (now : Nat) (out : SaveOutcome) : Run (MetricsSystem × Option BootFile) :=
  lockGuard held (st, file)
    (resetBootMetrics { st with logger := clearLog st.logger } true file now out)

/-- The member function `updateSystemMetrics` (lines 233-252), called by a thread
that holds the lock or not: it takes the lock at line 234 and calls `setGauge`
and `saveBootMetrics` with the lock held. `t` is the clock reading while the
gauges are set, `now` the one of line 247; `lastSaveTime` is taken to be a
`uint32_t` like `now`. -/
def updateSystemMetrics (st : MetricsSystem) (held : Bool) (file : Option BootFile)
    (env : SystemReadings) (t now : Nat) (out : SaveOutcome) :
    Run (MetricsSystem × Option BootFile) :=
  lockGuard held (st, file)
    (Run.andThen
      (if env.connected then setGaugeCall true (st, file) "system.wifi.signal" env.rssi t
       else Run.returned (st, file)) fun s1 =>
    Run.andThen (setGaugeCall true s1 "system.heap.free" env.freeHeap t) fun s2 =>
    Run.andThen (setGaugeCall true s2 "system.heap.min" env.minFreeHeap t) fun s3 =>
    Run.andThen (setGaugeCall true s3 "system.uptime" t t) fun s4 =>
    if uint32Sub now s4.1.lastSaveTime ≥ SAVE_INTERVAL then
      Run.andThen (saveBootMetricsCall true s4 out) fun s5 =>
        Run.returned ({ s5.1 with lastSaveTime := now }, s5.2)
    else Run.returned s4)

/-- Lines 155-164 in `double` arithmetic: the sum and the mean are rounded. -/
def recordIntoDouble (hist : Histogram) (value : Rat) : Histogram :=
  let lo := if hist.count = 0 then value else stdMin hist.min value
  let hi := if hist.count = 0 then value else stdMax hist.max value
  let sum := roundDouble (hist.sum + value)
  let count := hist.count + 1
  { value := roundDouble (sum / count), min := lo, max := hi, sum := sum, count := count }

/-- The member function `recordHistogram` (lines 147-168) in `double` arithmetic. -/
def recordHistogramDouble (st : MetricsSystem) (name : String) (value : Rat)
    (now : Nat) : MetricsSystem :=
  if hasType st name MetricType.HISTOGRAM then
    let old := mapIndex st.bootMetrics name
    let entry : MetricValue :=
      { old with payload := Payload.histogram (recordIntoDouble old.histogram value) }
    let metric : MetricValue :=
      { timestamp := now,
        payload := Payload.histogram
          { value := value, min := value, max := value, sum := value, count := 1 } }
    { st with
      bootMetrics := mapInsert st.bootMetrics name entry
      logger := logMetric st.logger name metric }
  else st

/-- The loop of lines 223-227 in `double` arithmetic: the sum is rounded. -/
def histogramLoopDouble (hist : Histogram) : List MetricValue → Histogram
  | [] => hist
  | v :: rest =>
    histogramLoopDouble
      { hist with
        min := stdMin hist.min v.histogram.value
        max := stdMax hist.max v.histogram.value
        sum := roundDouble (hist.sum + v.histogram.value) } rest

/-- The member function `calculateHistogram` (lines 210-231) in `double`
arithmetic. -/
def calculateHistogramDouble (values : List MetricValue) (now : Nat) : MetricValue :=
  match values with
  | [] => { timestamp := now, payload := Payload.histogram Histogram.zero }
  | v0 :: _ =>
    let start : Histogram :=
      { value := 0, min := v0.histogram.value, max := v0.histogram.value,
        sum := 0, count := values.length }
    let hist := histogramLoopDouble start values
    { timestamp := now,
      payload := Payload.histogram
        { hist with value := roundDouble (hist.sum / hist.count) } }

/-- Lockstep of the two maps: every name of the boot snapshot is in the catalog,
and every catalog entry has a boot-snapshot entry whose union holds the member
of the declared type. -/
def lockstep (st : MetricsSystem) : Bool :=
  (mapKeys st.bootMetrics).all (fun k => (mapFind st.metrics k).isSome) &&
  st.metrics.all (fun e =>
    match mapFind st.bootMetrics e.1 with
    | some v => decide (v.payload.type = some e.2.type)
    | none => false)

end MetricsSystem

/-- The eight built-in metrics of `initializeSystemMetrics`, in the order of
lines 67-76, each with its type and description. -/
def builtinMetrics : List (String × MetricType × String) :=
  [("system.requests.total", MetricType.COUNTER, "Total handled requests"),
   ("system.requests.errors", MetricType.COUNTER, "Request errors"),
   ("system.requests.timeouts", MetricType.COUNTER, "Request timeouts"),
   ("system.requests.duration", MetricType.HISTOGRAM, "Request handling duration (ms)"),
   ("system.heap.free", MetricType.GAUGE, "Free heap memory"),
   ("system.heap.min", MetricType.GAUGE, "Minimum free heap memory"),
   ("system.wifi.signal", MetricType.GAUGE, "WiFi signal strength (dBm)"),
   ("system.uptime", MetricType.GAUGE, "System uptime (ms)")]

/-- The first `n` registrations that `initializeSystemMetrics` makes at time `now`. -/
def builtinRegistrations (n now : Nat) : List (String × MetricType × String × Nat) :=
  (builtinMetrics.take n).map (fun e => (e.1, e.2.1, e.2.2, now))

/-- The calls `recordHistogram(name, v)` for each `(v, now)` of a list, in order,
in `double` arithmetic. -/
def recordAllDouble (st : MetricsSystem) (name : String) :
    List (Rat × Nat) → MetricsSystem
  | [] => st
  | (v, now) :: rest => recordAllDouble (st.recordHistogramDouble name v now) name rest

/-- The state after `registerMetric(name, HISTOGRAM, description)` at time `t0`
and then the calls `recordHistogram(name, v)` of a list, in `double` arithmetic. -/
def recordedDouble (st : MetricsSystem) (name description : String) (t0 : Nat)
    (calls : List (Rat × Nat)) : MetricsSystem :=
  recordAllDouble (st.registerMetric name MetricType.HISTOGRAM description t0) name calls

/-- One call of a member function that changes or reads the two maps. -/
inductive Call where
  | registerMetric (name : String) (type : MetricType) (description : String) (now : Nat)
  | incrementCounter (name : String) (value : Int) (now : Nat)
  | setGauge (name : String) (value : Rat) (now : Nat)
  | recordHistogram (name : String) (value : Rat) (now : Nat)
  | getMetric (name : String) (fromBoot : Bool) (now : Nat)
  | resetBootMetrics (now : Nat) (out : SaveOutcome)
  | clearHistory (now : Nat) (out : SaveOutcome)
deriving DecidableEq, Repr

/-- The object and the file after one call. `resetBootMetrics` and `clearHistory`
are run with their inner locks granted, which is further than the calls get:
they stop on the way with the two maps as they are at the start or at the end
of these lines. -/
def Call.run (s : MetricsSystem × Option BootFile) : Call → MetricsSystem × Option BootFile
  | Call.registerMetric name type description now =>
    (s.1.registerMetric name type description now, s.2)
  | Call.incrementCounter name value now => (s.1.incrementCounter name value now, s.2)
  | Call.setGauge name value now => (s.1.setGauge name value now, s.2)
  | Call.recordHistogram name value now => (s.1.recordHistogram name value now, s.2)
  | Call.getMetric name fromBoot now => ((s.1.getMetric name fromBoot now).2, s.2)
  | Call.resetBootMetrics now out => s.1.resetBootMetricsGranted s.2 now out
  | Call.clearHistory now out => s.1.clearHistoryGranted s.2 now out

/-- The object and the file after a sequence of calls. -/
def runCalls (s : MetricsSystem × Option BootFile) :
    List Call → MetricsSystem × Option BootFile
  | [] => s
  | c :: rest => runCalls (Call.run s c) rest

/-- The invariant behind `lockstep`, on lookups: the catalog has no name twice,
a name is in the boot snapshot exactly when it is in the catalog, and the union
of a boot-snapshot entry holds the member of the declared type. -/
def Consistent (st : MetricsSystem) : Prop :=
  (mapKeys st.metrics).Nodup ∧
  (∀ name, mapFind st.bootMetrics name = none ↔ mapFind st.metrics name = none) ∧
  (∀ name info v, mapFind st.metrics name = some info →
    mapFind st.bootMetrics name = some v → v.payload.type = some info.type)

/-! ## Lemmas on maps and on the sink -/

theorem mapFind_mapInsert_self {V : Type} (m : List (String × V)) (k : String) (v : V) :
    mapFind (mapInsert m k v) k = some v := by
  induction m with
  | nil => simp [mapInsert, mapFind]
  | cons e rest ih =>
    obtain ⟨k0, v0⟩ := e
    by_cases h : k0 = k
    · simp [mapInsert, mapFind, h]
    · simp [mapInsert, mapFind, h, ih]

theorem mapFind_mapInsert_ne {V : Type} (m : List (String × V)) (k k2 : String) (v : V)
    (h : k ≠ k2) : mapFind (mapInsert m k v) k2 = mapFind m k2 := by
  induction m with
  | nil => simp [mapInsert, mapFind, h]
  | cons e rest ih =>
    obtain ⟨k0, v0⟩ := e
    by_cases h0 : k0 = k
    · subst h0; simp [mapInsert, mapFind, h]
    · by_cases h1 : k0 = k2
      · subst h1; simp [mapInsert, mapFind, h0]
      · simp [mapInsert, mapFind, h0, h1, ih]

theorem mapInsert_absent {V : Type} (m : List (String × V)) (k : String) (v : V)
    (h : mapFind m k = none) : mapInsert m k v = m ++ [(k, v)] := by
  induction m with
  | nil => simp [mapInsert]
  | cons e rest ih =>
    obtain ⟨k0, v0⟩ := e
    by_cases h0 : k0 = k
    · simp [mapFind, h0] at h
    · simp [mapFind, h0] at h
      simp [mapInsert, h0, ih h]

theorem mapFind_eq_none_iff {V : Type} (m : List (String × V)) (k : String) :
    mapFind m k = none ↔ k ∉ mapKeys m := by
  induction m with
  | nil => simp [mapFind, mapKeys]
  | cons e rest ih =>
    obtain ⟨k0, v0⟩ := e
    by_cases h0 : k0 = k
    · simp [mapFind, mapKeys, h0]
    · have h1 : ¬ k = k0 := fun h => h0 h.symm
      simp [mapFind, h0, h1, ih, mapKeys]

theorem mapSize_mapInsert_le {V : Type} (m : List (String × V)) (k : String) (v : V) :
    mapSize (mapInsert m k v) ≤ mapSize m + 1 := by
  induction m with
  | nil => simp [mapInsert, mapSize]
  | cons e rest ih =>
    obtain ⟨k0, v0⟩ := e
    by_cases h0 : k0 = k
    · simp [mapInsert, mapSize, h0]
    · simp only [mapSize] at ih
      simp [mapInsert, mapSize, h0, ih]

theorem queryMetrics_logMetric_self (log : List (String × MetricValue)) (name : String)
    (v : MetricValue) :
    queryMetrics (logMetric log name v) name = queryMetrics log name ++ [v] := by
  simp [queryMetrics, logMetric, List.filter_append]

theorem queryMetrics_logMetric_ne (log : List (String × MetricValue)) (name other : String)
    (v : MetricValue) (h : name ≠ other) :
    queryMetrics (logMetric log name v) other = queryMetrics log other := by
  simp [queryMetrics, logMetric, List.filter_append, h]

theorem wrapInt64_of_inInt64 (x : Int) (h : inInt64 x) : wrapInt64 x = x := by
  unfold inInt64 at h
  unfold wrapInt64
  omega

theorem stdMin_eq_min (a b : Rat) : stdMin a b = min a b := by
  unfold stdMin
  split_ifs with h
  · exact (min_eq_right (le_of_lt h)).symm
  · exact (min_eq_left (not_lt.mp h)).symm

theorem stdMax_eq_max (a b : Rat) : stdMax a b = max a b := by
  unfold stdMax
  split_ifs with h
  · exact (max_eq_right (le_of_lt h)).symm
  · exact (max_eq_left (not_lt.mp h)).symm

end Esp32Mcp

namespace Esp32Mcp

open MetricsSystem

/-! ## Lemmas on registration -/

theorem registerMetric_accepted (st : MetricsSystem) (name : String) (type : MetricType)
    (description : String) (now : Nat) (hcap : mapSize st.metrics < MAX_METRICS) :
    st.registerMetric name type description now =
      { st with
        metrics := mapInsert st.metrics name
          { name := name, type := type, description := description }
        bootMetrics := mapInsert st.bootMetrics name
          { timestamp := now, payload := zeroPayload type } } := by
  unfold registerMetric
  rw [if_neg (by omega)]

theorem hasType_registerMetric (st : MetricsSystem) (name : String) (type : MetricType)
    (description : String) (now : Nat) (hcap : mapSize st.metrics < MAX_METRICS) :
    (st.registerMetric name type description now).hasType name type = true := by
  rw [registerMetric_accepted st name type description now hcap]
  simp [hasType, mapFind_mapInsert_self]

theorem hasType_of_metrics_eq (s1 s2 : MetricsSystem) (name : String) (type : MetricType)
    (h : s1.metrics = s2.metrics) : s1.hasType name type = s2.hasType name type := by
  simp [hasType, h]

/-! ## Counters -/

theorem incrementCounter_accepted (st : MetricsSystem) (name : String) (value : Int)
    (now : Nat) (h : st.hasType name MetricType.COUNTER = true) :
    st.incrementCounter name value now =
      { st with
        bootMetrics := mapInsert st.bootMetrics name
          { mapIndex st.bootMetrics name with
            payload := Payload.counter
              (wrapInt64 ((mapIndex st.bootMetrics name).counter + value)) }
        logger := logMetric st.logger name
          { timestamp := now, payload := Payload.counter value } } := by
  simp [incrementCounter, h]

theorem incrementAll_run (name : String) (calls : List (Int × Nat)) :
    ∀ (s : MetricsSystem) (t : Nat) (a : Int),
      s.hasType name MetricType.COUNTER = true →
      mapFind s.bootMetrics name = some { timestamp := t, payload := Payload.counter a } →
      (∀ k : Nat, inInt64 (a + ((calls.take k).map Prod.fst).sum)) →
      (incrementAll s name calls).metrics = s.metrics ∧
      mapFind (incrementAll s name calls).bootMetrics name =
        some { timestamp := t, payload := Payload.counter (a + (calls.map Prod.fst).sum) } ∧
      queryMetrics (incrementAll s name calls).logger name =
        queryMetrics s.logger name ++ calls.map counterSample := by
  induction calls with
  | nil => intro s t a _ hb _; simp [incrementAll, hb]
  | cons c rest ih =>
    intro s t a hty hb hp
    obtain ⟨d, now⟩ := c
    have h1 : inInt64 (a + d) := by simpa using hp 1
    have hstep := incrementCounter_accepted s name d now hty
    have hidx : mapIndex s.bootMetrics name =
        { timestamp := t, payload := Payload.counter a } := by simp [mapIndex, hb]
    have hty2 : (s.incrementCounter name d now).hasType name MetricType.COUNTER = true := by
      rw [hasType_of_metrics_eq _ s name _ (by rw [hstep]), hty]
    have hb2 : mapFind (s.incrementCounter name d now).bootMetrics name =
        some { timestamp := t, payload := Payload.counter (a + d) } := by
      rw [hstep]
      simp [mapFind_mapInsert_self, hidx, MetricValue.counter, wrapInt64_of_inInt64 _ h1]
    have hp2 : ∀ k : Nat, inInt64 (a + d + ((rest.take k).map Prod.fst).sum) := by
      intro k
      have := hp (k + 1)
      simpa [add_assoc] using this
    obtain ⟨m1, m2, m3⟩ := ih (s.incrementCounter name d now) t (a + d) hty2 hb2 hp2
    refine ⟨?_, ?_, ?_⟩
    · simp only [incrementAll]; rw [m1, hstep]
    · simp only [incrementAll]; rw [m2]; simp [add_assoc]
    · simp only [incrementAll]; rw [m3, hstep]
      simp [queryMetrics_logMetric_self, counterSample]

theorem counterLoop_samples (calls : List (Int × Nat)) :
    ∀ acc : Int, (∀ k : Nat, inInt64 (acc + ((calls.take k).map Prod.fst).sum)) →
      counterLoop acc (calls.map counterSample) = acc + (calls.map Prod.fst).sum := by
  induction calls with
  | nil => intro acc _; simp [counterLoop]
  | cons c rest ih =>
    intro acc hp
    have h1 : inInt64 (acc + c.1) := by simpa using hp 1
    have hp2 : ∀ k : Nat, inInt64 (acc + c.1 + ((rest.take k).map Prod.fst).sum) := by
      intro k
      have := hp (k + 1)
      simpa [add_assoc] using this
    simp only [List.map_cons, counterLoop, counterSample, MetricValue.counter]
    rw [wrapInt64_of_inInt64 _ h1]
    have := ih (acc + c.1) hp2
    simp only [counterSample] at this
    rw [this]
    simp [add_assoc]

end Esp32Mcp

namespace Esp32Mcp

open MetricsSystem

/-- C1: a counter freshly registered (the registration is accepted, the sink
holds no sample under the name) and then incremented by `d1 .. dn`, all partial
sums fitting `int64_t`: `getMetric(name, true).counter` is `d1 + .. + dn`, the
sink holds under the name exactly the `n` delta samples of those calls, and
`getMetric(name, false).counter`, recomputed from them, is `d1 + .. + dn` too. -/
theorem counter_boot_and_history_agree (st : MetricsSystem) (name description : String)
    (t0 now : Nat) (calls : List (Int × Nat))
    (hcap : mapSize st.metrics < MAX_METRICS)
    (hsink : queryMetrics st.logger name = [])
    (hfit : ∀ k : Nat, inInt64 (((calls.take k).map Prod.fst).sum)) :
    ((incrementAll (st.registerMetric name MetricType.COUNTER description t0) name
        calls).getMetric name true now).1.counter = (calls.map Prod.fst).sum ∧
    queryMetrics (incrementAll (st.registerMetric name MetricType.COUNTER description t0)
        name calls).logger name = calls.map counterSample ∧
    ((incrementAll (st.registerMetric name MetricType.COUNTER description t0) name
        calls).getMetric name false now).1.counter = (calls.map Prod.fst).sum := by
  have hreg := registerMetric_accepted st name MetricType.COUNTER description t0 hcap
  have hty := hasType_registerMetric st name MetricType.COUNTER description t0 hcap
  have hb : mapFind (st.registerMetric name MetricType.COUNTER description t0).bootMetrics name
      = some { timestamp := t0, payload := Payload.counter 0 } := by
    rw [hreg]; simp [mapFind_mapInsert_self, zeroPayload]
  have hp : ∀ k : Nat, inInt64 (0 + ((calls.take k).map Prod.fst).sum) := by
    intro k; simpa using hfit k
  obtain ⟨m1, m2, m3⟩ := incrementAll_run name calls _ t0 0 hty hb hp
  have hlog : (st.registerMetric name MetricType.COUNTER description t0).logger = st.logger := by
    rw [hreg]
  rw [hlog, hsink, List.nil_append] at m3
  have hcat : mapFind (incrementAll (st.registerMetric name MetricType.COUNTER description t0)
      name calls).metrics name =
      some { name := name, type := MetricType.COUNTER, description := description } := by
    rw [m1, hreg]; simp [mapFind_mapInsert_self]
  refine ⟨?_, m3, ?_⟩
  · simp [getMetric, hcat, mapIndex, m2, MetricValue.counter]
  · cases calls with
    | nil => simp [getMetric, hcat, m3, MetricValue.zero, MetricValue.counter]
    | cons c rest =>
      have hloop := counterLoop_samples (c :: rest) 0 hp
      simp only [getMetric, hcat, m3]
      simp only [List.map_cons, List.isEmpty_cons, Bool.false_eq_true, if_false]
      simp only [List.map_cons] at hloop
      simp only [MetricValue.counter, hloop]
      simp

/-- C1, the scenario of the specification: the deltas 3, -1, 5 on a new counter
`x` give 7 from the boot snapshot and 7 from the sink. -/
theorem counter_boot_and_history_agree_witness :
    mapSize MetricsSystem.new.metrics < MAX_METRICS ∧
    queryMetrics MetricsSystem.new.logger "x" = [] ∧
    ((incrementAll (MetricsSystem.new.registerMetric "x" MetricType.COUNTER "a counter" 1)
        "x" [(3, 2), (-1, 3), (5, 4)]).getMetric "x" true 9).1.counter = 7 ∧
    ((incrementAll (MetricsSystem.new.registerMetric "x" MetricType.COUNTER "a counter" 1)
        "x" [(3, 2), (-1, 3), (5, 4)]).getMetric "x" false 9).1.counter = 7 := by
  have hfit : ∀ k : Nat, inInt64
      ((([(3, 2), (-1, 3), (5, 4)] : List (Int × Nat)).take k).map Prod.fst).sum := by
    intro k
    rcases k with _ | _ | _ | k <;> simp [inInt64]
  have h := counter_boot_and_history_agree MetricsSystem.new "x" "a counter" 1 9
    [(3, 2), (-1, 3), (5, 4)] (by decide) (by rfl) hfit
  exact ⟨by decide, by rfl, h.1, h.2.2⟩

end Esp32Mcp

namespace Esp32Mcp

open MetricsSystem

/-! ## Histograms -/

theorem foldl_min_mem (l : List Rat) : ∀ a : Rat, List.foldl min a l ∈ a :: l := by
  induction l with
  | nil => intro a; simp
  | cons x rest ih =>
    intro a
    have h := ih (min a x)
    simp only [List.foldl_cons]
    rcases List.mem_cons.mp h with h1 | h1
    · rw [h1]
      rcases min_choice a x with h2 | h2 <;> simp [h2]
    · simp [h1]

theorem foldl_min_le (l : List Rat) : ∀ a : Rat, ∀ x ∈ a :: l, List.foldl min a l ≤ x := by
  induction l with
  | nil => intro a x hx; simp at hx; simp [hx]
  | cons y rest ih =>
    intro a x hx
    simp only [List.foldl_cons]
    have hbase : List.foldl min (min a y) rest ≤ min a y :=
      ih (min a y) (min a y) (List.mem_cons_self _ _)
    rcases List.mem_cons.mp hx with h1 | h1
    · rw [h1]; exact le_trans hbase (min_le_left a y)
    · rcases List.mem_cons.mp h1 with h2 | h2
      · rw [h2]; exact le_trans hbase (min_le_right a y)
      · exact ih (min a y) x (List.mem_cons_of_mem _ h2)

theorem foldl_max_mem (l : List Rat) : ∀ a : Rat, List.foldl max a l ∈ a :: l := by
  induction l with
  | nil => intro a; simp
  | cons x rest ih =>
    intro a
    have h := ih (max a x)
    simp only [List.foldl_cons]
    rcases List.mem_cons.mp h with h1 | h1
    · rw [h1]
      rcases max_choice a x with h2 | h2 <;> simp [h2]
    · simp [h1]

theorem le_foldl_max (l : List Rat) : ∀ a : Rat, ∀ x ∈ a :: l, x ≤ List.foldl max a l := by
  induction l with
  | nil => intro a x hx; simp at hx; simp [hx]
  | cons y rest ih =>
    intro a x hx
    simp only [List.foldl_cons]
    have hbase : max a y ≤ List.foldl max (max a y) rest :=
      ih (max a y) (max a y) (List.mem_cons_self _ _)
    rcases List.mem_cons.mp hx with h1 | h1
    · rw [h1]; exact le_trans (le_max_left a y) hbase
    · rcases List.mem_cons.mp h1 with h2 | h2
      · rw [h2]; exact le_trans (le_max_right a y) hbase
      · exact ih (max a y) x (List.mem_cons_of_mem _ h2)

/-- The accumulator after observations made on one that already has some. -/
theorem foldl_recordInto (vs : List Rat) :
    ∀ h : Histogram, 0 < h.count →
      (vs.foldl recordInto h).count = h.count + vs.length ∧
      (vs.foldl recordInto h).sum = h.sum + vs.sum ∧
      (vs.foldl recordInto h).min = vs.foldl min h.min ∧
      (vs.foldl recordInto h).max = vs.foldl max h.max ∧
      (vs ≠ [] → (vs.foldl recordInto h).value =
        (vs.foldl recordInto h).sum / ((vs.foldl recordInto h).count : Rat)) := by
  induction vs using List.reverseRecOn with
  | nil => intro h _; simp
  | append_singleton rest v ih =>
    intro h hc
    obtain ⟨i1, i2, i3, i4, _⟩ := ih h hc
    have hne : (List.foldl recordInto h rest).count ≠ 0 := by omega
    simp only [List.foldl_append, List.foldl_cons, List.foldl_nil]
    refine ⟨?_, ?_, ?_, ?_, ?_⟩
    · simp [recordInto, i1]; omega
    · simp [recordInto, i2, add_assoc]
    · simp [recordInto, hne, i3, stdMin_eq_min]
    · simp [recordInto, hne, i4, stdMax_eq_max]
    · intro _; simp [recordInto]

/-- The loop of `calculateHistogram` leaves `value` and `count` alone and folds
`std::min`, `std::max` and `+` over the samples' `value` fields. -/
theorem histogramLoop_fields (values : List MetricValue) :
    ∀ h : Histogram,
      (histogramLoop h values).count = h.count ∧
      (histogramLoop h values).value = h.value ∧
      (histogramLoop h values).sum = h.sum + (values.map (fun v => v.histogram.value)).sum ∧
      (histogramLoop h values).min =
        (values.map (fun v => v.histogram.value)).foldl min h.min ∧
      (histogramLoop h values).max =
        (values.map (fun v => v.histogram.value)).foldl max h.max := by
  induction values with
  | nil => intro h; simp [histogramLoop]
  | cons v rest ih =>
    intro h
    obtain ⟨i1, i2, i3, i4, i5⟩ := ih
      { h with
        min := stdMin h.min v.histogram.value
        max := stdMax h.max v.histogram.value
        sum := h.sum + v.histogram.value }
    simp only [histogramLoop, List.map_cons, List.foldl_cons, List.sum_cons]
    refine ⟨i1, i2, ?_, ?_, ?_⟩
    · rw [i3]; simp [add_assoc]
    · rw [i4]; simp [stdMin_eq_min]
    · rw [i5]; simp [stdMax_eq_max]

end Esp32Mcp

namespace Esp32Mcp

open MetricsSystem

theorem recordHistogram_accepted (st : MetricsSystem) (name : String) (value : Rat)
    (now : Nat) (h : st.hasType name MetricType.HISTOGRAM = true) :
    st.recordHistogram name value now =
      { st with
        bootMetrics := mapInsert st.bootMetrics name
          { mapIndex st.bootMetrics name with
            payload := Payload.histogram
              (recordInto (mapIndex st.bootMetrics name).histogram value) }
        logger := logMetric st.logger name (histogramSample (value, now)) } := by
  simp [recordHistogram, h, histogramSample]

theorem recordAll_run (name : String) (calls : List (Rat × Nat)) :
    ∀ (s : MetricsSystem) (t : Nat) (h : Histogram),
      s.hasType name MetricType.HISTOGRAM = true →
      mapFind s.bootMetrics name = some { timestamp := t, payload := Payload.histogram h } →
      (recordAll s name calls).metrics = s.metrics ∧
      mapFind (recordAll s name calls).bootMetrics name =
        some { timestamp := t,
               payload := Payload.histogram ((calls.map Prod.fst).foldl recordInto h) } ∧
      queryMetrics (recordAll s name calls).logger name =
        queryMetrics s.logger name ++ calls.map histogramSample := by
  induction calls with
  | nil => intro s t h _ hb; simp [recordAll, hb]
  | cons c rest ih =>
    intro s t h hty hb
    obtain ⟨v, now⟩ := c
    have hstep := recordHistogram_accepted s name v now hty
    have hidx : mapIndex s.bootMetrics name =
        { timestamp := t, payload := Payload.histogram h } := by simp [mapIndex, hb]
    have hty2 : (s.recordHistogram name v now).hasType name MetricType.HISTOGRAM = true := by
      rw [hasType_of_metrics_eq _ s name _ (by rw [hstep]), hty]
    have hb2 : mapFind (s.recordHistogram name v now).bootMetrics name =
        some { timestamp := t, payload := Payload.histogram (recordInto h v) } := by
      rw [hstep]
      simp [mapFind_mapInsert_self, hidx, MetricValue.histogram]
    obtain ⟨m1, m2, m3⟩ := ih (s.recordHistogram name v now) t (recordInto h v) hty2 hb2
    refine ⟨?_, ?_, ?_⟩
    · simp only [recordAll]; rw [m1, hstep]
    · simp only [recordAll]; rw [m2]; simp
    · simp only [recordAll]; rw [m3, hstep]
      simp [queryMetrics_logMetric_self]

/-- What registering a histogram and recording into it leaves in the three parts
of the state that `getMetric` reads. -/
theorem recorded_run (st : MetricsSystem) (name description : String) (t0 : Nat)
    (calls : List (Rat × Nat)) (hcap : mapSize st.metrics < MAX_METRICS) :
    mapFind (recorded st name description t0 calls).metrics name =
      some { name := name, type := MetricType.HISTOGRAM, description := description } ∧
    mapFind (recorded st name description t0 calls).bootMetrics name =
      some { timestamp := t0,
             payload := Payload.histogram
               ((calls.map Prod.fst).foldl recordInto Histogram.zero) } ∧
    queryMetrics (recorded st name description t0 calls).logger name =
      queryMetrics st.logger name ++ calls.map histogramSample := by
  have hreg := registerMetric_accepted st name MetricType.HISTOGRAM description t0 hcap
  have hty := hasType_registerMetric st name MetricType.HISTOGRAM description t0 hcap
  have hb : mapFind (st.registerMetric name MetricType.HISTOGRAM description t0).bootMetrics
      name = some { timestamp := t0, payload := Payload.histogram Histogram.zero } := by
    rw [hreg]; simp [mapFind_mapInsert_self, zeroPayload]
  obtain ⟨m1, m2, m3⟩ := recordAll_run name calls _ t0 Histogram.zero hty hb
  refine ⟨?_, m2, ?_⟩
  · unfold recorded; rw [m1, hreg]; simp [mapFind_mapInsert_self]
  · unfold recorded; rw [m3, hreg]

theorem recordInto_zero (v : Rat) :
    recordInto Histogram.zero v = { value := v, min := v, max := v, sum := v, count := 1 } := by
  simp [recordInto, Histogram.zero]

end Esp32Mcp

namespace Esp32Mcp

open MetricsSystem

/-- The boot accumulator after the observations `v1, rest`, in closed form. -/
theorem foldl_recordInto_zero (v1 : Rat) (rest : List Rat) :
    (v1 :: rest).foldl recordInto Histogram.zero =
      { value := (v1 + rest.sum) / ((rest.length + 1 : Nat) : Rat),
        min := rest.foldl min v1,
        max := rest.foldl max v1,
        sum := v1 + rest.sum,
        count := rest.length + 1 } := by
  simp only [List.foldl_cons, recordInto_zero]
  obtain ⟨i1, i2, i3, i4, i5⟩ := foldl_recordInto rest
    { value := v1, min := v1, max := v1, sum := v1, count := 1 } (by simp)
  have hval : (rest.foldl recordInto
      { value := v1, min := v1, max := v1, sum := v1, count := 1 }).value =
      (v1 + rest.sum) / ((rest.length + 1 : Nat) : Rat) := by
    cases rest with
    | nil => simp
    | cons x xs =>
      rw [i5 (by simp), i2, i1]
      simp [add_comm]
  cases hfold : rest.foldl recordInto
      { value := v1, min := v1, max := v1, sum := v1, count := 1 } with
  | mk a b c d e =>
    rw [hfold] at i1 i2 i3 i4 hval
    simp only at i1 i2 i3 i4 hval
    simp only [Histogram.mk.injEq]
    exact ⟨hval, i3, i4, i2, by omega⟩

/-- The result of `calculateHistogram` on the samples `v0, rest`, in closed form. -/
theorem calculateHistogram_cons (v0 : MetricValue) (rest : List MetricValue) (now : Nat) :
    calculateHistogram (v0 :: rest) now =
      { timestamp := now,
        payload := Payload.histogram
          { value := (v0.histogram.value + (rest.map (fun v => v.histogram.value)).sum) /
              ((rest.length + 1 : Nat) : Rat),
            min := (rest.map (fun v => v.histogram.value)).foldl min v0.histogram.value,
            max := (rest.map (fun v => v.histogram.value)).foldl max v0.histogram.value,
            sum := v0.histogram.value + (rest.map (fun v => v.histogram.value)).sum,
            count := rest.length + 1 } } := by
  obtain ⟨i1, _, i3, i4, i5⟩ := histogramLoop_fields (v0 :: rest)
    { value := 0, min := v0.histogram.value, max := v0.histogram.value,
      sum := 0, count := (v0 :: rest).length }
  simp only [List.map_cons, List.foldl_cons, List.sum_cons, min_self, max_self,
    List.length_cons, zero_add] at i1 i3 i4 i5
  simp only [calculateHistogram, List.length_cons]
  rw [i1, i3, i4, i5]

end Esp32Mcp

namespace Esp32Mcp

open MetricsSystem

/-- The accumulator that `getMetric(name, true)` returns after a histogram has
been registered and recorded into is the fold of lines 155-164 over the values. -/
theorem recorded_boot (st : MetricsSystem) (name description : String) (t0 now : Nat)
    (calls : List (Rat × Nat)) (hcap : mapSize st.metrics < MAX_METRICS) :
    ((recorded st name description t0 calls).getMetric name true now).1.histogram =
      (calls.map Prod.fst).foldl recordInto Histogram.zero := by
  obtain ⟨m1, m2, _⟩ := recorded_run st name description t0 calls hcap
  simp [getMetric, m1, mapIndex, m2, MetricValue.histogram]

/-- C2: a histogram freshly registered (the registration is accepted) and then
fed `v1 .. vn`, `n > 0`: the boot-snapshot accumulator has `count = n`, `min`
the least and `max` the greatest of the values, `sum` their sum and
`value = sum / count`. After the first sample alone `min = max = v1`, and with
no sample the accumulator is all zero. -/
theorem histogram_boot_statistics (st : MetricsSystem) (name description : String)
    (t0 now : Nat) (c : Rat × Nat) (rest : List (Rat × Nat))
    (hcap : mapSize st.metrics < MAX_METRICS) :
    ((recorded st name description t0 []).getMetric name true now).1.histogram =
      { value := 0, min := 0, max := 0, sum := 0, count := 0 } ∧
    ((recorded st name description t0 [c]).getMetric name true now).1.histogram =
      { value := c.1, min := c.1, max := c.1, sum := c.1, count := 1 } ∧
    ((recorded st name description t0 (c :: rest)).getMetric name true now).1.histogram.count
      = (c :: rest).length ∧
    ((recorded st name description t0 (c :: rest)).getMetric name true now).1.histogram.min
      ∈ (c :: rest).map Prod.fst ∧
    (∀ v ∈ (c :: rest).map Prod.fst,
      ((recorded st name description t0 (c :: rest)).getMetric name true now).1.histogram.min
        ≤ v) ∧
    ((recorded st name description t0 (c :: rest)).getMetric name true now).1.histogram.max
      ∈ (c :: rest).map Prod.fst ∧
    (∀ v ∈ (c :: rest).map Prod.fst, v ≤
      ((recorded st name description t0 (c :: rest)).getMetric name true now).1.histogram.max)
      ∧
    ((recorded st name description t0 (c :: rest)).getMetric name true now).1.histogram.sum
      = ((c :: rest).map Prod.fst).sum ∧
    ((recorded st name description t0 (c :: rest)).getMetric name true now).1.histogram.value
      = ((c :: rest).map Prod.fst).sum / ((c :: rest).length : Rat) := by
  rw [recorded_boot st name description t0 now [] hcap,
    recorded_boot st name description t0 now [c] hcap,
    recorded_boot st name description t0 now (c :: rest) hcap]
  simp only [List.map_cons, List.map_nil, foldl_recordInto_zero]
  refine ⟨by simp [Histogram.zero], by simp, by simp, ?_, ?_, ?_, ?_, by simp, by simp⟩
  · exact foldl_min_mem _ _
  · exact foldl_min_le _ _
  · exact foldl_max_mem _ _
  · exact le_foldl_max _ _

/-- C2, the scenario of the specification: recording 2.0 then 8.0 into a new
histogram `h` gives min 2, max 8, sum 10, count 2 and value 5. -/
theorem histogram_boot_statistics_witness :
    mapSize MetricsSystem.new.metrics < MAX_METRICS ∧
    ((recorded MetricsSystem.new "h" "a histogram" 1 [(2, 2), (8, 3)]).getMetric
      "h" true 9).1.histogram =
      { value := 5, min := 2, max := 8, sum := 10, count := 2 } := by
  have h := histogram_boot_statistics MetricsSystem.new "h" "a histogram" 1 9 (2, 2)
    [(8, 3)] (by decide)
  obtain ⟨_, _, h3, h4, h5, h6, h7, h8, h9⟩ := h
  refine ⟨by decide, ?_⟩
  cases hh : ((recorded MetricsSystem.new "h" "a histogram" 1 [(2, 2), (8, 3)]).getMetric
      "h" true 9).1.histogram with
  | mk a b c d e =>
    rw [hh] at h3 h4 h5 h6 h7 h8 h9
    simp only [List.map_cons, List.map_nil, List.length_cons, List.length_nil,
      List.sum_cons, List.sum_nil, List.mem_cons, List.mem_singleton, List.not_mem_nil,
      or_false, forall_eq_or_imp, forall_eq] at h3 h4 h5 h6 h7 h8 h9
    have hb : b = 2 := by
      rcases h4 with h4 | h4
      · exact h4
      · exact absurd h5.1 (by rw [h4]; norm_num)
    have hc : c = 8 := by
      rcases h6 with h6 | h6
      · exact absurd h7.2 (by rw [h6]; norm_num)
      · exact h6
    rw [Histogram.mk.injEq]
    refine ⟨?_, hb, hc, ?_, h3⟩
    · rw [h9]; norm_num
    · rw [h8]; norm_num

/-- C3: after a histogram has been freshly registered (the registration is
accepted, the sink holds no sample under the name) and fed `v1 .. vn`, the sink
holds under the name exactly the `n` single-point samples of those calls, and
the aggregate `getMetric(name, false)` that `calculateHistogram` computes from
them has the same `value`, `min`, `max`, `sum` and `count` as the boot
accumulator `getMetric(name, true)`. -/
theorem histogram_history_matches_boot (st : MetricsSystem) (name description : String)
    (t0 now : Nat) (calls : List (Rat × Nat))
    (hcap : mapSize st.metrics < MAX_METRICS)
    (hsink : queryMetrics st.logger name = []) :
    queryMetrics (recorded st name description t0 calls).logger name =
      calls.map histogramSample ∧
    ((recorded st name description t0 calls).getMetric name false now).1.histogram =
      ((recorded st name description t0 calls).getMetric name true now).1.histogram := by
  obtain ⟨m1, _, m3⟩ := recorded_run st name description t0 calls hcap
  rw [hsink, List.nil_append] at m3
  refine ⟨m3, ?_⟩
  rw [recorded_boot st name description t0 now calls hcap]
  cases calls with
  | nil => simp [getMetric, m1, m3, MetricValue.zero, MetricValue.histogram]
  | cons c rest =>
    simp only [getMetric, m1, m3, List.map_cons, List.isEmpty_cons, Bool.false_eq_true,
      if_false, calculateHistogram_cons, foldl_recordInto_zero, MetricValue.histogram]
    simp [histogramSample, MetricValue.histogram, Function.comp_def]

/-- C3 at the two samples 2.0 and 8.0 recorded into a new histogram `h`. -/
theorem histogram_history_matches_boot_witness :
    mapSize MetricsSystem.new.metrics < MAX_METRICS ∧
    queryMetrics MetricsSystem.new.logger "h" = [] ∧
    queryMetrics (recorded MetricsSystem.new "h" "a histogram" 1 [(2, 2), (8, 3)]).logger "h"
      = [histogramSample (2, 2), histogramSample (8, 3)] ∧
    ((recorded MetricsSystem.new "h" "a histogram" 1 [(2, 2), (8, 3)]).getMetric
      "h" false 9).1.histogram =
    ((recorded MetricsSystem.new "h" "a histogram" 1 [(2, 2), (8, 3)]).getMetric
      "h" true 9).1.histogram :=
  ⟨by decide, by rfl,
    histogram_history_matches_boot MetricsSystem.new "h" "a histogram" 1 9 [(2, 2), (8, 3)]
      (by decide) (by rfl)⟩

/-- C7: `calculateHistogram` on the empty sequence gives the all-zero accumulator
with count 0; on the samples `v0, rest` it gives `min` the least and `max` the
greatest of the samples' `value` fields, `sum` their sum, `count` the number of
samples and `value = sum / count`, whatever the samples' own `min`, `max`, `sum`
and `count` fields are. -/
theorem calculateHistogram_statistics (v0 : MetricValue) (rest : List MetricValue)
    (now : Nat) :
    calculateHistogram [] now =
      { timestamp := now,
        payload := Payload.histogram
          { value := 0, min := 0, max := 0, sum := 0, count := 0 } } ∧
    (calculateHistogram (v0 :: rest) now).histogram.min ∈
      (v0 :: rest).map (fun v => v.histogram.value) ∧
    (∀ x ∈ (v0 :: rest).map (fun v => v.histogram.value),
      (calculateHistogram (v0 :: rest) now).histogram.min ≤ x) ∧
    (calculateHistogram (v0 :: rest) now).histogram.max ∈
      (v0 :: rest).map (fun v => v.histogram.value) ∧
    (∀ x ∈ (v0 :: rest).map (fun v => v.histogram.value),
      x ≤ (calculateHistogram (v0 :: rest) now).histogram.max) ∧
    (calculateHistogram (v0 :: rest) now).histogram.sum =
      ((v0 :: rest).map (fun v => v.histogram.value)).sum ∧
    (calculateHistogram (v0 :: rest) now).histogram.count = (v0 :: rest).length ∧
    (calculateHistogram (v0 :: rest) now).histogram.value =
      ((v0 :: rest).map (fun v => v.histogram.value)).sum / ((v0 :: rest).length : Rat) := by
  rw [calculateHistogram_cons]
  simp only [MetricValue.histogram, List.map_cons]
  refine ⟨by simp [calculateHistogram, Histogram.zero], ?_, ?_, ?_, ?_,
    by simp, by simp, by simp⟩
  · exact foldl_min_mem _ _
  · exact foldl_min_le _ _
  · exact foldl_max_mem _ _
  · exact le_foldl_max _ _

end Esp32Mcp

namespace Esp32Mcp

open MetricsSystem

/-! ## Registration and the cap -/

/-- C4 as stated fails: in `fullState` the catalog holds 50 entries, `m0` among
them with boot value 5; `registerMetric("m0", COUNTER, ..)` changes nothing, so
the boot value of `m0` is still 5 and not the zero of its type. -/
theorem registerMetric_full_catalog_counterexample :
    mapSize fullState.metrics = 50 ∧
    mapFind fullState.metrics "m0" =
      some { name := "m0", type := MetricType.COUNTER, description := "a counter" } ∧
    fullState.registerMetric "m0" MetricType.COUNTER "again" 60 = fullState ∧
    mapFind (fullState.registerMetric "m0" MetricType.COUNTER "again" 60).metrics "m0" ≠
      some { name := "m0", type := MetricType.COUNTER, description := "again" } ∧
    mapFind (fullState.registerMetric "m0" MetricType.COUNTER "again" 60).bootMetrics "m0" =
      some { timestamp := 0, payload := Payload.counter 5 } ∧
    ((fullState.registerMetric "m0" MetricType.COUNTER "again" 60).getMetric
      "m0" true 61).1.counter ≠ 0 := by
  set_option maxRecDepth 100000 in decide

/-- C4 amended: with 50 or more catalog entries `registerMetric` changes nothing,
whether or not the name is new; with fewer it inserts or overwrites the catalog
entry of the name with the given type and description, sets the boot-snapshot
entry of the name to the zero of the type (counter 0, gauge 0, all-zero
histogram) stamped with the current time, and leaves every other entry of both
maps, and the sink, as they were. -/
theorem registerMetric_effect (st : MetricsSystem) (name : String) (type : MetricType)
    (description : String) (now : Nat) :
    (50 ≤ mapSize st.metrics → st.registerMetric name type description now = st) ∧
    (mapSize st.metrics < 50 →
      mapFind (st.registerMetric name type description now).metrics name =
        some { name := name, type := type, description := description } ∧
      mapFind (st.registerMetric name type description now).bootMetrics name =
        some { timestamp := now,
               payload := match type with
                 | MetricType.COUNTER => Payload.counter 0
                 | MetricType.GAUGE => Payload.gauge 0
                 | MetricType.HISTOGRAM => Payload.histogram
                     { value := 0, min := 0, max := 0, sum := 0, count := 0 } } ∧
      (∀ other : String, other ≠ name →
        mapFind (st.registerMetric name type description now).metrics other =
          mapFind st.metrics other ∧
        mapFind (st.registerMetric name type description now).bootMetrics other =
          mapFind st.bootMetrics other) ∧
      (st.registerMetric name type description now).logger = st.logger) := by
  constructor
  · intro h
    simp [registerMetric, MAX_METRICS, h]
  · intro h
    rw [registerMetric_accepted st name type description now h]
    refine ⟨by simp [mapFind_mapInsert_self], ?_, ?_, rfl⟩
    · cases type <;> simp [mapFind_mapInsert_self, zeroPayload, Histogram.zero]
    · intro other hne
      exact ⟨mapFind_mapInsert_ne _ _ _ _ (Ne.symm hne),
        mapFind_mapInsert_ne _ _ _ _ (Ne.symm hne)⟩

/-- C4 amended, at concrete inputs: re-registering `m0` in the full catalog of
`fullState` changes nothing, and registering a gauge `g` on a new object stores
the catalog entry and the zero gauge stamped 7. -/
theorem registerMetric_effect_witness :
    fullState.registerMetric "m0" MetricType.COUNTER "again" 60 = fullState ∧
    mapFind (MetricsSystem.new.registerMetric "g" MetricType.GAUGE "a gauge" 7).metrics "g" =
      some { name := "g", type := MetricType.GAUGE, description := "a gauge" } ∧
    mapFind (MetricsSystem.new.registerMetric "g" MetricType.GAUGE "a gauge" 7).bootMetrics
      "g" = some { timestamp := 7, payload := Payload.gauge 0 } :=
  ⟨(registerMetric_effect fullState "m0" MetricType.COUNTER "again" 60).1
      (by set_option maxRecDepth 100000 in decide),
    ((registerMetric_effect MetricsSystem.new "g" MetricType.GAUGE "a gauge" 7).2
      (by decide)).1,
    ((registerMetric_effect MetricsSystem.new "g" MetricType.GAUGE "a gauge" 7).2
      (by decide)).2.1⟩

theorem mapKeys_mapInsert_absent {V : Type} (m : List (String × V)) (k : String) (v : V)
    (h : k ∉ mapKeys m) : mapKeys (mapInsert m k v) = mapKeys m ++ [k] := by
  rw [mapInsert_absent m k v ((mapFind_eq_none_iff m k).mpr h)]
  simp [mapKeys]

/-- Registering pairwise distinct new names fills both maps in step until the
catalog holds 50 entries, and does nothing from then on. -/
theorem registerAll_keys (regs : List (String × MetricType × String × Nat)) :
    ∀ st : MetricsSystem,
      (regs.map Prod.fst).Nodup →
      (∀ n ∈ regs.map Prod.fst, n ∉ mapKeys st.metrics) →
      mapKeys st.bootMetrics = mapKeys st.metrics →
      mapSize st.metrics ≤ 50 →
      mapKeys (registerAll st regs).metrics =
        mapKeys st.metrics ++ (regs.take (50 - mapSize st.metrics)).map Prod.fst ∧
      mapKeys (registerAll st regs).bootMetrics = mapKeys (registerAll st regs).metrics := by
  induction regs with
  | nil => intro st _ _ hb _; simp [registerAll, hb]
  | cons r rest ih =>
    intro st hnd hnew hb hsz
    obtain ⟨name, type, description, now⟩ := r
    simp only [List.map_cons, List.nodup_cons, List.mem_cons, forall_eq_or_imp] at hnd hnew
    by_cases hfull : mapSize st.metrics = 50
    · have hnoop : st.registerMetric name type description now = st := by
        simp [registerMetric, MAX_METRICS, hfull]
      have := ih st hnd.2 hnew.2 hb hsz
      simp only [registerAll, hnoop]
      simpa [hfull] using this
    · have hlt : mapSize st.metrics < MAX_METRICS := by
        simp only [MAX_METRICS]; omega
      have hreg := registerMetric_accepted st name type description now hlt
      have hk1 : mapKeys (st.registerMetric name type description now).metrics =
          mapKeys st.metrics ++ [name] := by
        rw [hreg]; exact mapKeys_mapInsert_absent _ _ _ hnew.1
      have hk2 : mapKeys (st.registerMetric name type description now).bootMetrics =
          mapKeys st.metrics ++ [name] := by
        rw [hreg, ← hb]; exact mapKeys_mapInsert_absent _ _ _ (by rw [hb]; exact hnew.1)
      have hsz1 : mapSize (st.registerMetric name type description now).metrics =
          mapSize st.metrics + 1 := by
        have := congrArg List.length hk1
        simpa [mapKeys, mapSize] using this
      have hnew2 : ∀ n ∈ rest.map Prod.fst,
          n ∉ mapKeys (st.registerMetric name type description now).metrics := by
        intro n hn
        rw [hk1]
        simp only [List.mem_append, List.mem_singleton, not_or]
        refine ⟨hnew.2 n hn, ?_⟩
        intro he
        exact hnd.1 (he ▸ hn)
      obtain ⟨i1, i2⟩ := ih (st.registerMetric name type description now) hnd.2 hnew2
        (by rw [hk1, hk2]) (by omega)
      simp only [registerAll]
      refine ⟨?_, i2⟩
      rw [i1, hk1, hsz1]
      have hsplit : 50 - mapSize st.metrics = (50 - (mapSize st.metrics + 1)) + 1 := by omega
      rw [hsplit]
      simp

/-- C5: on an object with empty catalog and empty boot snapshot, registering more
than 50 pairwise distinct names leaves exactly 50 catalog entries, those of the
first 50 names in order, and the 51st and every later name in neither the
catalog nor the boot snapshot; and no call of `registerMetric` takes a catalog
of at most 50 entries to one of more than 50. -/
theorem registerMetric_cap (st : MetricsSystem)
    (regs : List (String × MetricType × String × Nat))
    (hcat : st.metrics = []) (hboot : st.bootMetrics = [])
    (hnd : (regs.map Prod.fst).Nodup) (hlen : 50 < regs.length) :
    mapSize (registerAll st regs).metrics = 50 ∧
    mapKeys (registerAll st regs).metrics = (regs.take 50).map Prod.fst ∧
    (∀ r ∈ regs.drop 50,
      mapFind (registerAll st regs).metrics r.1 = none ∧
      mapFind (registerAll st regs).bootMetrics r.1 = none) ∧
    (∀ (s : MetricsSystem) (name : String) (type : MetricType) (description : String)
      (now : Nat), mapSize s.metrics ≤ 50 →
        mapSize (s.registerMetric name type description now).metrics ≤ 50) := by
  obtain ⟨k1, k2⟩ := registerAll_keys regs st hnd (by simp [hcat, mapKeys])
    (by rw [hcat, hboot]; rfl) (by simp [hcat, mapSize])
  simp only [hcat, mapKeys, mapSize, List.map_nil, List.nil_append, List.length_nil,
    Nat.sub_zero] at k1 k2
  refine ⟨?_, ?_, ?_, ?_⟩
  · have := congrArg List.length k1
    simp only [List.length_map, List.length_take] at this
    simp only [mapSize]; omega
  · simpa [mapKeys] using k1
  · intro r hr
    have hsplit : (regs.take 50 ++ regs.drop 50).map Prod.fst = regs.map Prod.fst := by
      rw [List.take_append_drop]
    have hnd2 := hnd
    rw [← hsplit, List.map_append, List.nodup_append] at hnd2
    have hnot : r.1 ∉ (regs.take 50).map Prod.fst := fun hin =>
      hnd2.2.2 hin (List.mem_map_of_mem Prod.fst hr)
    constructor
    · rw [mapFind_eq_none_iff]; simp only [mapKeys]; rw [k1]; exact hnot
    · rw [mapFind_eq_none_iff]; simp only [mapKeys]; rw [k2, k1]; exact hnot
  · intro s name type description now hs
    unfold registerMetric
    split_ifs with h
    · exact hs
    · simp only [MAX_METRICS] at h
      have := mapSize_mapInsert_le s.metrics name
        ({ name := name, type := type, description := description } : MetricInfo)
      simp only []
      omega

/-- C5 at the 51 counters `m0 .. m50` registered on a new object: 50 entries,
and `m50` in neither map. -/
theorem registerMetric_cap_witness :
    ((counterRegistrations 51).map Prod.fst).Nodup ∧
    50 < (counterRegistrations 51).length ∧
    mapSize (registerAll MetricsSystem.new (counterRegistrations 51)).metrics = 50 ∧
    mapFind (registerAll MetricsSystem.new (counterRegistrations 51)).metrics "m50" = none ∧
    mapFind (registerAll MetricsSystem.new (counterRegistrations 51)).bootMetrics "m50"
      = none := by
  have hnd : ((counterRegistrations 51).map Prod.fst).Nodup := by
    set_option maxRecDepth 100000 in decide
  have hlen : 50 < (counterRegistrations 51).length := by decide
  have h := registerMetric_cap MetricsSystem.new (counterRegistrations 51) rfl rfl hnd hlen
  have hmem : (("m50", MetricType.COUNTER, "a counter", 50) :
      String × MetricType × String × Nat) ∈ (counterRegistrations 51).drop 50 := by
    decide
  exact ⟨hnd, hlen, h.1, (h.2.2.1 _ hmem).1, (h.2.2.1 _ hmem).2⟩

end Esp32Mcp

namespace Esp32Mcp

open MetricsSystem

/-! ## Rejected and accepted updates -/

theorem hasType_eq_false (st : MetricsSystem) (name : String) (type : MetricType)
    (h : mapFind st.metrics name = none ∨
      ∃ info, mapFind st.metrics name = some info ∧ info.type ≠ type) :
    st.hasType name type = false := by
  rcases h with h | ⟨info, h, hne⟩
  · simp [hasType, h]
  · simp [hasType, h, hne]

theorem hasType_eq_true (st : MetricsSystem) (name : String) (type : MetricType)
    (h : ∃ info, mapFind st.metrics name = some info ∧ info.type = type) :
    st.hasType name type = true := by
  obtain ⟨info, h, he⟩ := h
  simp [hasType, h, he]

/-- C6: an update whose name is not in the catalog, or is there with a type
other than the one the operation is for, returns the state it was given: the
catalog, the boot snapshot with its key set, and the sink are the same, so no
sample has been appended. -/
theorem rejected_update_changes_nothing (st : MetricsSystem) (name : String) (d : Int)
    (g v : Rat) (now : Nat) :
    ((mapFind st.metrics name = none ∨
        ∃ info, mapFind st.metrics name = some info ∧ info.type ≠ MetricType.COUNTER) →
      st.incrementCounter name d now = st) ∧
    ((mapFind st.metrics name = none ∨
        ∃ info, mapFind st.metrics name = some info ∧ info.type ≠ MetricType.GAUGE) →
      st.setGauge name g now = st) ∧
    ((mapFind st.metrics name = none ∨
        ∃ info, mapFind st.metrics name = some info ∧ info.type ≠ MetricType.HISTOGRAM) →
      st.recordHistogram name v now = st) := by
  refine ⟨?_, ?_, ?_⟩
  · intro h; simp [incrementCounter, hasType_eq_false st name _ h]
  · intro h; simp [setGauge, hasType_eq_false st name _ h]
  · intro h; simp [recordHistogram, hasType_eq_false st name _ h]

/-- C6 at concrete inputs: on `fullState`, whose catalog holds the counters
`m0 .. m49`, incrementing the unknown name `nope`, setting the counter `m1` as a
gauge and recording into the counter `m1` as a histogram change nothing. -/
theorem rejected_update_changes_nothing_witness :
    fullState.incrementCounter "nope" 4 70 = fullState ∧
    fullState.setGauge "m1" 3 70 = fullState ∧
    fullState.recordHistogram "m1" 3 70 = fullState :=
  ⟨(rejected_update_changes_nothing fullState "nope" 4 3 3 70).1
      (Or.inl (by set_option maxRecDepth 100000 in decide)),
    (rejected_update_changes_nothing fullState "m1" 4 3 3 70).2.1
      (Or.inr ⟨{ name := "m1", type := MetricType.COUNTER, description := "a counter" },
        by set_option maxRecDepth 100000 in decide, by decide⟩),
    (rejected_update_changes_nothing fullState "m1" 4 3 3 70).2.2
      (Or.inr ⟨{ name := "m1", type := MetricType.COUNTER, description := "a counter" },
        by set_option maxRecDepth 100000 in decide, by decide⟩)⟩

/-- C9: an update whose name is in the catalog with the type of the operation
appends exactly one sample to the sink, under that name and stamped with the
current time, and the sample holds the argument of the call alone: the delta
for a counter, the value for a gauge, and `value = min = max = sum = v`,
`count = 1` for a histogram, whatever the boot snapshot held. -/
theorem accepted_update_appends_one_sample (st : MetricsSystem) (name : String) (d : Int)
    (g v : Rat) (now : Nat) :
    ((∃ info, mapFind st.metrics name = some info ∧ info.type = MetricType.COUNTER) →
      (st.incrementCounter name d now).logger =
        st.logger ++ [(name, { timestamp := now, payload := Payload.counter d })]) ∧
    ((∃ info, mapFind st.metrics name = some info ∧ info.type = MetricType.GAUGE) →
      (st.setGauge name g now).logger =
        st.logger ++ [(name, { timestamp := now, payload := Payload.gauge g })]) ∧
    ((∃ info, mapFind st.metrics name = some info ∧ info.type = MetricType.HISTOGRAM) →
      (st.recordHistogram name v now).logger =
        st.logger ++
          [(name,
            { timestamp := now
              payload := Payload.histogram
                { value := v, min := v, max := v, sum := v, count := 1 } })]) := by
  refine ⟨?_, ?_, ?_⟩
  · intro h; simp [incrementCounter, hasType_eq_true st name _ h, logMetric]
  · intro h; simp [setGauge, hasType_eq_true st name _ h, logMetric]
  · intro h; simp [recordHistogram, hasType_eq_true st name _ h, logMetric]

/-- C9 at a concrete input: on `fullState`, where the counter `m0` stands at 5,
`incrementCounter("m0", 2)` at time 70 appends the sample with counter 2, not 7. -/
theorem accepted_update_appends_one_sample_witness :
    (mapIndex fullState.bootMetrics "m0").counter = 5 ∧
    (fullState.incrementCounter "m0" 2 70).logger =
      fullState.logger ++ [("m0", { timestamp := 70, payload := Payload.counter 2 })] :=
  ⟨by set_option maxRecDepth 100000 in decide,
    (accepted_update_appends_one_sample fullState "m0" 2 0 0 70).1
      ⟨{ name := "m0", type := MetricType.COUNTER, description := "a counter" },
        by set_option maxRecDepth 100000 in decide, rfl⟩⟩

end Esp32Mcp

namespace Esp32Mcp

open MetricsSystem

/-! ## Gauges -/

theorem setGauge_accepted (st : MetricsSystem) (name : String) (value : Rat)
    (now : Nat) (h : st.hasType name MetricType.GAUGE = true) :
    st.setGauge name value now =
      { st with
        bootMetrics := mapInsert st.bootMetrics name
          { mapIndex st.bootMetrics name with payload := Payload.gauge value }
        logger := logMetric st.logger name (gaugeSample (value, now)) } := by
  simp [setGauge, h, gaugeSample]

theorem setAll_run (name : String) (calls : List (Rat × Nat)) :
    ∀ (s : MetricsSystem) (t : Nat) (p : Payload),
      s.hasType name MetricType.GAUGE = true →
      mapFind s.bootMetrics name = some { timestamp := t, payload := p } →
      (setAll s name calls).metrics = s.metrics ∧
      mapFind (setAll s name calls).bootMetrics name =
        some { timestamp := t,
               payload := calls.foldl (fun _ c => Payload.gauge c.1) p } ∧
      queryMetrics (setAll s name calls).logger name =
        queryMetrics s.logger name ++ calls.map gaugeSample := by
  induction calls with
  | nil => intro s t p _ hb; simp [setAll, hb]
  | cons c rest ih =>
    intro s t p hty hb
    obtain ⟨g, now⟩ := c
    have hstep := setGauge_accepted s name g now hty
    have hidx : mapIndex s.bootMetrics name = { timestamp := t, payload := p } := by
      simp [mapIndex, hb]
    have hty2 : (s.setGauge name g now).hasType name MetricType.GAUGE = true := by
      rw [hasType_of_metrics_eq _ s name _ (by rw [hstep]), hty]
    have hb2 : mapFind (s.setGauge name g now).bootMetrics name =
        some { timestamp := t, payload := Payload.gauge g } := by
      rw [hstep]
      simp [mapFind_mapInsert_self, hidx]
    obtain ⟨m1, m2, m3⟩ := ih (s.setGauge name g now) t (Payload.gauge g) hty2 hb2
    refine ⟨?_, ?_, ?_⟩
    · simp only [setAll]; rw [m1, hstep]
    · simp only [setAll]; rw [m2]; simp
    · simp only [setAll]; rw [m3, hstep]
      simp [queryMetrics_logMetric_self]

/-- C8: a gauge freshly registered (the registration is accepted, the sink holds
no sample under the name) and then set to `g1 .. gn`, the last call being
`setGauge(name, g)` at time `t`: `getMetric(name, true).gauge` is `g`, the sink
holds under the name exactly the `n` samples of those calls in order, and
`getMetric(name, false)` is the last of them, with gauge `g`. -/
theorem gauge_last_value_wins (st : MetricsSystem) (name description : String)
    (t0 now : Nat) (calls : List (Rat × Nat)) (g : Rat) (t : Nat)
    (hcap : mapSize st.metrics < MAX_METRICS)
    (hsink : queryMetrics st.logger name = []) :
    ((gauged st name description t0 (calls ++ [(g, t)])).getMetric name true now).1.gauge
      = g ∧
    queryMetrics (gauged st name description t0 (calls ++ [(g, t)])).logger name =
      (calls ++ [(g, t)]).map gaugeSample ∧
    ((gauged st name description t0 (calls ++ [(g, t)])).getMetric name false now).1 =
      { timestamp := t, payload := Payload.gauge g } ∧
    ((gauged st name description t0 (calls ++ [(g, t)])).getMetric name false now).1.gauge
      = g := by
  have hreg := registerMetric_accepted st name MetricType.GAUGE description t0 hcap
  have hty := hasType_registerMetric st name MetricType.GAUGE description t0 hcap
  have hb : mapFind (st.registerMetric name MetricType.GAUGE description t0).bootMetrics name
      = some { timestamp := t0, payload := Payload.gauge 0 } := by
    rw [hreg]; simp [mapFind_mapInsert_self, zeroPayload]
  obtain ⟨m1, m2, m3⟩ := setAll_run name (calls ++ [(g, t)]) _ t0 (Payload.gauge 0) hty hb
  have hlog : (st.registerMetric name MetricType.GAUGE description t0).logger = st.logger := by
    rw [hreg]
  rw [hlog, hsink, List.nil_append] at m3
  have hcat : mapFind (gauged st name description t0 (calls ++ [(g, t)])).metrics name =
      some { name := name, type := MetricType.GAUGE, description := description } := by
    unfold gauged; rw [m1, hreg]; simp [mapFind_mapInsert_self]
  have hhist : ((gauged st name description t0 (calls ++ [(g, t)])).getMetric
      name false now).1 = { timestamp := t, payload := Payload.gauge g } := by
    simp only [getMetric, hcat]
    unfold gauged
    rw [m3]
    simp [gaugeSample]
  refine ⟨?_, m3, hhist, ?_⟩
  · unfold gauged at hcat ⊢
    simp [getMetric, hcat, mapIndex, m2, MetricValue.gauge, List.foldl_append]
  · rw [hhist]; rfl

/-- C8 at the calls `setGauge("g", 4)`, `setGauge("g", -3/2)` on a new gauge. -/
theorem gauge_last_value_wins_witness :
    mapSize MetricsSystem.new.metrics < MAX_METRICS ∧
    queryMetrics MetricsSystem.new.logger "g" = [] ∧
    ((gauged MetricsSystem.new "g" "a gauge" 1 ([(4, 2)] ++ [(-3 / 2, 3)])).getMetric
      "g" true 9).1.gauge = -3 / 2 ∧
    ((gauged MetricsSystem.new "g" "a gauge" 1 ([(4, 2)] ++ [(-3 / 2, 3)])).getMetric
      "g" false 9).1.gauge = -3 / 2 :=
  ⟨by decide, by rfl,
    (gauge_last_value_wins MetricsSystem.new "g" "a gauge" 1 9 [(4, 2)] (-3 / 2) 3
      (by decide) (by rfl)).1,
    (gauge_last_value_wins MetricsSystem.new "g" "a gauge" 1 9 [(4, 2)] (-3 / 2) 3
      (by decide) (by rfl)).2.2.2⟩

/-! ## Reading with an empty history -/

/-- C10 as stated fails: the counter `x` is registered, the sink is empty, and
`getMetric("x", false)` called at time 9 returns timestamp 0, not 9. -/
theorem getMetric_empty_history_counterexample :
    mapFind (MetricsSystem.new.registerMetric "x" MetricType.COUNTER "a counter" 1).metrics
      "x" = some { name := "x", type := MetricType.COUNTER, description := "a counter" } ∧
    queryMetrics (MetricsSystem.new.registerMetric "x" MetricType.COUNTER "a counter" 1).logger
      "x" = [] ∧
    ((MetricsSystem.new.registerMetric "x" MetricType.COUNTER "a counter" 1).getMetric
      "x" false 9).1.timestamp = 0 ∧
    ((MetricsSystem.new.registerMetric "x" MetricType.COUNTER "a counter" 1).getMetric
      "x" false 9).1.timestamp ≠ 9 := by
  decide

/-- C10 amended: for a registered name whose sink query returns no samples,
`getMetric(name, false)` returns the value-initialised `MetricValue{}`, the
zero payload with timestamp 0, whatever the current time, and changes nothing. -/
theorem getMetric_empty_history (st : MetricsSystem) (name : String) (now : Nat)
    (hreg : ∃ info, mapFind st.metrics name = some info)
    (hempty : queryMetrics st.logger name = []) :
    st.getMetric name false now = ({ timestamp := 0, payload := Payload.zeroed }, st) ∧
    (st.getMetric name false now).1.counter = 0 ∧
    (st.getMetric name false now).1.gauge = 0 ∧
    (st.getMetric name false now).1.histogram =
      { value := 0, min := 0, max := 0, sum := 0, count := 0 } := by
  obtain ⟨info, hinfo⟩ := hreg
  have h : st.getMetric name false now =
      ({ timestamp := 0, payload := Payload.zeroed }, st) := by
    simp [getMetric, hinfo, hempty, MetricValue.zero]
  rw [h]
  exact ⟨rfl, rfl, rfl, rfl⟩

/-- C10 amended, at the counter `x` registered on a new object and read at
time 9. -/
theorem getMetric_empty_history_witness :
    (MetricsSystem.new.registerMetric "x" MetricType.COUNTER "a counter" 1).getMetric
      "x" false 9 =
    ({ timestamp := 0, payload := Payload.zeroed },
      MetricsSystem.new.registerMetric "x" MetricType.COUNTER "a counter" 1) :=
  (getMetric_empty_history
    (MetricsSystem.new.registerMetric "x" MetricType.COUNTER "a counter" 1) "x" 9
    ⟨{ name := "x", type := MetricType.COUNTER, description := "a counter" }, by decide⟩
    (by rfl)).1

end Esp32Mcp

namespace Esp32Mcp

open MetricsSystem

/-! ## Reading without the sink -/

/-- C11: `getMetric` does not look at the sink when `fromBoot` is true or the name
is unknown. With the sink replaced by any `log1` or `log2`, `getMetric(name,
true)` on a name of the catalog returns what `bootMetrics[name]` holds, payload
and stored timestamp (the stored entry itself when there is one), the same in
both runs; and `getMetric(name, fromBoot)` on a name that is not in the catalog
returns the value-initialised result in both runs, for either `fromBoot`. -/
theorem getMetric_independent_of_sink (st : MetricsSystem)
    (log1 log2 : List (String × MetricValue)) (name : String) (fromBoot : Bool)
    (now1 now2 : Nat) :
    ((∃ info, mapFind st.metrics name = some info) →
      ({ st with logger := log1 }.getMetric name true now1).1 =
        mapIndex st.bootMetrics name ∧
      ({ st with logger := log2 }.getMetric name true now2).1 =
        mapIndex st.bootMetrics name ∧
      (∀ v, mapFind st.bootMetrics name = some v →
        ({ st with logger := log1 }.getMetric name true now1).1 = v ∧
        ({ st with logger := log2 }.getMetric name true now2).1 = v)) ∧
    (mapFind st.metrics name = none →
      ({ st with logger := log1 }.getMetric name fromBoot now1).1 =
        { timestamp := 0, payload := Payload.zeroed } ∧
      ({ st with logger := log2 }.getMetric name fromBoot now2).1 =
        { timestamp := 0, payload := Payload.zeroed }) := by
  constructor
  · rintro ⟨info, h⟩
    refine ⟨by simp [getMetric, h], by simp [getMetric, h], ?_⟩
    intro v hv
    simp [getMetric, h, mapIndex, hv]
  · intro h
    simp [getMetric, h, MetricValue.zero]

/-- C11 at concrete inputs: on `fullState` with the sink emptied or holding a
sample of 99 under `m0`, `getMetric("m0", true)` is the stored entry with
counter 5 and timestamp 0, and the unknown name `nope` reads as zero. -/
theorem getMetric_independent_of_sink_witness :
    ({ fullState with logger := [] }.getMetric "m0" true 70).1 =
      { timestamp := 0, payload := Payload.counter 5 } ∧
    ({ fullState with
        logger := [("m0", { timestamp := 3, payload := Payload.counter 99 })] }.getMetric
      "m0" true 80).1 = { timestamp := 0, payload := Payload.counter 5 } ∧
    ({ fullState with logger := [] }.getMetric "nope" false 70).1 =
      { timestamp := 0, payload := Payload.zeroed } :=
  have h := getMetric_independent_of_sink fullState []
    [("m0", { timestamp := 3, payload := Payload.counter 99 })] "m0" true 70 80
  have h2 := getMetric_independent_of_sink fullState []
    [("m0", { timestamp := 3, payload := Payload.counter 99 })] "nope" false 70 80
  ⟨((h.1 ⟨{ name := "m0", type := MetricType.COUNTER, description := "a counter" },
        by set_option maxRecDepth 100000 in decide⟩).2.2
      { timestamp := 0, payload := Payload.counter 5 }
      (by set_option maxRecDepth 100000 in decide)).1,
    ((h.1 ⟨{ name := "m0", type := MetricType.COUNTER, description := "a counter" },
        by set_option maxRecDepth 100000 in decide⟩).2.2
      { timestamp := 0, payload := Payload.counter 5 }
      (by set_option maxRecDepth 100000 in decide)).2,
    (h2.2 (by set_option maxRecDepth 100000 in decide)).1⟩

end Esp32Mcp

namespace Esp32Mcp

open MetricsSystem

/-! ## Lockstep -/

theorem mapFind_mapInsert {V : Type} (m : List (String × V)) (k k2 : String) (v : V) :
    mapFind (mapInsert m k v) k2 = if k = k2 then some v else mapFind m k2 := by
  split_ifs with h
  · subst h; exact mapFind_mapInsert_self m k v
  · exact mapFind_mapInsert_ne m k k2 v h

theorem mapKeys_mapInsert_present {V : Type} (m : List (String × V)) (k : String) (v : V)
    (h : mapFind m k ≠ none) : mapKeys (mapInsert m k v) = mapKeys m := by
  induction m with
  | nil => simp [mapFind] at h
  | cons e rest ih =>
    obtain ⟨k0, v0⟩ := e
    by_cases h0 : k0 = k
    · simp [mapInsert, mapKeys, h0]
    · simp only [mapFind, h0, if_false] at h
      have := ih h
      simp only [mapKeys] at this
      simp [mapInsert, mapKeys, h0, this]

theorem nodup_mapKeys_mapInsert {V : Type} (m : List (String × V)) (k : String) (v : V)
    (h : (mapKeys m).Nodup) : (mapKeys (mapInsert m k v)).Nodup := by
  by_cases hk : mapFind m k = none
  · rw [mapKeys_mapInsert_absent m k v ((mapFind_eq_none_iff m k).mp hk)]
    rw [List.nodup_append]
    refine ⟨h, by simp, ?_⟩
    intro a ha hb
    simp only [List.mem_singleton] at hb
    exact (mapFind_eq_none_iff m k).mp hk (hb ▸ ha)
  · rw [mapKeys_mapInsert_present m k v hk]; exact h

theorem mapFind_of_mem {V : Type} (m : List (String × V)) (k : String) (v : V)
    (hnd : (mapKeys m).Nodup) (h : (k, v) ∈ m) : mapFind m k = some v := by
  induction m with
  | nil => simp at h
  | cons e rest ih =>
    obtain ⟨k0, v0⟩ := e
    simp only [mapKeys, List.map_cons, List.nodup_cons] at hnd
    rcases List.mem_cons.mp h with h1 | h1
    · simp only [Prod.mk.injEq] at h1
      simp [mapFind, h1.1, h1.2]
    · have hne : k0 ≠ k := by
        intro he
        exact hnd.1 (he ▸ List.mem_map_of_mem Prod.fst h1)
      simp only [mapFind, hne, if_false]
      exact ih hnd.2 h1

theorem mem_of_mapFind {V : Type} (m : List (String × V)) (k : String) (v : V)
    (h : mapFind m k = some v) : (k, v) ∈ m := by
  induction m with
  | nil => simp [mapFind] at h
  | cons e rest ih =>
    obtain ⟨k0, v0⟩ := e
    by_cases h0 : k0 = k
    · simp only [mapFind, h0, if_true, Option.some.injEq] at h
      simp [h0, h]
    · simp only [mapFind, h0, if_false] at h
      exact List.mem_cons_of_mem _ (ih h)

theorem zeroPayload_type (type : MetricType) : (zeroPayload type).type = some type := by
  cases type <;> rfl

theorem hasType_iff (st : MetricsSystem) (name : String) (type : MetricType) :
    st.hasType name type = true ↔
      ∃ info, mapFind st.metrics name = some info ∧ info.type = type := by
  unfold hasType
  cases h : mapFind st.metrics name with
  | none => simp
  | some info => simp

/-- The boot snapshot that the loop of `resetBootMetrics` builds, on lookups. -/
theorem mapFind_resetLoop (now : Nat) (cat : List (String × MetricInfo)) :
    ∀ (boot : List (String × MetricValue)) (name : String), (mapKeys cat).Nodup →
      mapFind (resetLoop now boot cat) name =
        match mapFind cat name with
        | some info => some { timestamp := now, payload := zeroPayload info.type }
        | none => mapFind boot name := by
  induction cat with
  | nil => intro boot name _; simp [resetLoop, mapFind]
  | cons e rest ih =>
    intro boot name hnd
    obtain ⟨k, info⟩ := e
    simp only [mapKeys, List.map_cons, List.nodup_cons] at hnd
    have hrest := ih (mapInsert boot k { timestamp := now, payload := zeroPayload info.type })
      name hnd.2
    simp only [resetLoop]
    rw [hrest]
    by_cases hk : k = name
    · subst hk
      have hnone : mapFind rest k = none := (mapFind_eq_none_iff rest k).mpr hnd.1
      simp [mapFind, hnone, mapFind_mapInsert_self]
    · simp only [mapFind, hk, if_false]
      cases hf : mapFind rest name with
      | none => simp [mapFind_mapInsert_ne _ _ _ _ hk]
      | some i => simp

end Esp32Mcp

namespace Esp32Mcp

open MetricsSystem

theorem consistent_new : Consistent MetricsSystem.new := by
  refine ⟨by simp [MetricsSystem.new, mapKeys], ?_, ?_⟩
  · intro name; simp [MetricsSystem.new, mapFind]
  · intro name info v h; simp [MetricsSystem.new, mapFind] at h

theorem consistent_registerMetric (st : MetricsSystem) (name : String) (type : MetricType)
    (description : String) (now : Nat) (h : Consistent st) :
    Consistent (st.registerMetric name type description now) := by
  by_cases hcap : mapSize st.metrics < MAX_METRICS
  · rw [registerMetric_accepted st name type description now hcap]
    obtain ⟨h1, h2, h3⟩ := h
    refine ⟨nodup_mapKeys_mapInsert _ _ _ h1, ?_, ?_⟩
    · intro n
      simp only [mapFind_mapInsert]
      split_ifs
      · simp
      · exact h2 n
    · intro n info v
      simp only [mapFind_mapInsert]
      split_ifs
      · intro hi hv
        simp only [Option.some.injEq] at hi hv
        rw [← hi, ← hv]
        exact zeroPayload_type type
      · exact h3 n info v
  · have : st.registerMetric name type description now = st := by
      unfold registerMetric
      rw [if_pos (by omega)]
    rw [this]; exact h

/-- An accepted update writes the union member of the declared type. -/
theorem consistent_write (st : MetricsSystem) (name : String) (type : MetricType)
    (entry : MetricValue) (log : List (String × MetricValue))
    (hty : st.hasType name type = true) (hentry : entry.payload.type = some type)
    (h : Consistent st) :
    Consistent { st with bootMetrics := mapInsert st.bootMetrics name entry, logger := log } := by
  obtain ⟨h1, h2, h3⟩ := h
  obtain ⟨info0, hinfo0, htype0⟩ := (hasType_iff st name type).mp hty
  refine ⟨h1, ?_, ?_⟩
  · intro n
    simp only [mapFind_mapInsert]
    split_ifs with hn
    · subst hn; simp [hinfo0]
    · exact h2 n
  · intro n info v
    simp only [mapFind_mapInsert]
    split_ifs with hn
    · subst hn
      intro hi hv
      rw [hinfo0] at hi
      simp only [Option.some.injEq] at hi hv
      rw [← hv, hentry, ← hi, htype0]
    · exact h3 n info v

theorem consistent_incrementCounter (st : MetricsSystem) (name : String) (value : Int)
    (now : Nat) (h : Consistent st) : Consistent (st.incrementCounter name value now) := by
  by_cases hty : st.hasType name MetricType.COUNTER = true
  · rw [incrementCounter_accepted st name value now hty]
    exact consistent_write st name MetricType.COUNTER _ _ hty rfl h
  · simp only [incrementCounter, hty]; exact h

theorem consistent_setGauge (st : MetricsSystem) (name : String) (value : Rat)
    (now : Nat) (h : Consistent st) : Consistent (st.setGauge name value now) := by
  by_cases hty : st.hasType name MetricType.GAUGE = true
  · rw [setGauge_accepted st name value now hty]
    exact consistent_write st name MetricType.GAUGE _ _ hty rfl h
  · simp only [setGauge, hty]; exact h

theorem consistent_recordHistogram (st : MetricsSystem) (name : String) (value : Rat)
    (now : Nat) (h : Consistent st) : Consistent (st.recordHistogram name value now) := by
  by_cases hty : st.hasType name MetricType.HISTOGRAM = true
  · rw [recordHistogram_accepted st name value now hty]
    exact consistent_write st name MetricType.HISTOGRAM _ _ hty rfl h
  · simp only [recordHistogram, hty]; exact h

/-- In a consistent state `getMetric` leaves the object as it is. -/
theorem getMetric_state (st : MetricsSystem) (name : String) (fromBoot : Bool) (now : Nat)
    (h : Consistent st) : (st.getMetric name fromBoot now).2 = st := by
  unfold getMetric
  cases hf : mapFind st.metrics name with
  | none => rfl
  | some info =>
    have hb : mapFind st.bootMetrics name ≠ none := by
      intro hn
      have := (h.2.1 name).mp hn
      rw [hf] at this
      exact Option.noConfusion this
    cases fromBoot with
    | true =>
      cases hv : mapFind st.bootMetrics name with
      | none => exact absurd hv hb
      | some v => simp [mapTouch, hv]
    | false =>
      simp only [Bool.false_eq_true, if_false]
      split_ifs
      · rfl
      · cases info.type <;> rfl

theorem consistent_resetBootMetrics (st : MetricsSystem) (file : Option BootFile) (now : Nat)
    (out : SaveOutcome) (h : (mapKeys st.metrics).Nodup) :
    Consistent (st.resetBootMetricsGranted file now out).1 := by
  refine ⟨h, ?_, ?_⟩
  · intro n
    simp only [resetBootMetricsGranted, mapFind_resetLoop now st.metrics [] n h]
    cases mapFind st.metrics n <;> simp [mapFind]
  · intro n info v hi
    simp only [resetBootMetricsGranted] at hi ⊢
    rw [mapFind_resetLoop now st.metrics [] n h, hi]
    intro hv
    simp only [Option.some.injEq] at hv
    rw [← hv]
    exact zeroPayload_type info.type

theorem consistent_run (s : MetricsSystem × Option BootFile) (c : Call)
    (h : Consistent s.1) : Consistent (Call.run s c).1 := by
  cases c with
  | registerMetric name type description now =>
    exact consistent_registerMetric s.1 name type description now h
  | incrementCounter name value now => exact consistent_incrementCounter s.1 name value now h
  | setGauge name value now => exact consistent_setGauge s.1 name value now h
  | recordHistogram name value now => exact consistent_recordHistogram s.1 name value now h
  | getMetric name fromBoot now =>
    simp only [Call.run]
    rw [getMetric_state s.1 name fromBoot now h]; exact h
  | resetBootMetrics now out => exact consistent_resetBootMetrics s.1 s.2 now out h.1
  | clearHistory now out =>
    exact consistent_resetBootMetrics { s.1 with logger := clearLog s.1.logger } s.2 now out h.1

theorem consistent_runCalls (calls : List Call) :
    ∀ s : MetricsSystem × Option BootFile, Consistent s.1 → Consistent (runCalls s calls).1 := by
  induction calls with
  | nil => intro s h; exact h
  | cons c rest ih => intro s h; exact ih (Call.run s c) (consistent_run s c h)

theorem lockstep_of_consistent (st : MetricsSystem) (h : Consistent st) :
    st.lockstep = true := by
  obtain ⟨h1, h2, h3⟩ := h
  simp only [lockstep, Bool.and_eq_true, List.all_eq_true]
  constructor
  · intro k hk
    have hb : mapFind st.bootMetrics k ≠ none := fun hn =>
      (mapFind_eq_none_iff _ k).mp hn hk
    have hm : mapFind st.metrics k ≠ none := fun hn => hb ((h2 k).mpr hn)
    cases hf : mapFind st.metrics k with
    | none => exact absurd hf hm
    | some i => rfl
  · intro e he
    have hf : mapFind st.metrics e.1 = some e.2 := mapFind_of_mem st.metrics e.1 e.2 h1 he
    cases hv : mapFind st.bootMetrics e.1 with
    | none =>
      have := (h2 e.1).mp hv
      rw [hf] at this
      exact Option.noConfusion this
    | some v => simpa using h3 e.1 e.2 v hf hv

/-- What `lockstep` gives for a name of the catalog. -/
theorem lockstep_entry (st : MetricsSystem) (name : String) (info : MetricInfo)
    (h : st.lockstep = true) (hf : mapFind st.metrics name = some info) :
    ∃ v, mapFind st.bootMetrics name = some v ∧ v.payload.type = some info.type := by
  simp only [lockstep, Bool.and_eq_true, List.all_eq_true] at h
  have := h.2 (name, info) (mem_of_mapFind _ _ _ hf)
  cases hv : mapFind st.bootMetrics name with
  | none => simp [hv] at this
  | some v => exact ⟨v, rfl, by simpa [hv] using this⟩

/-- C12: lockstep is an invariant. After any sequence of `registerMetric`,
`incrementCounter`, `setGauge`, `recordHistogram`, `getMetric`,
`resetBootMetrics` and `clearHistory` calls on a new object, whatever the file
system does, the two maps are in lockstep: a name is in the boot snapshot
exactly when it is in the catalog, and each boot-snapshot entry holds the union
member of the type that the catalog declares for the name. -/
theorem lockstep_invariant (calls : List Call) (file : Option BootFile) :
    (runCalls (MetricsSystem.new, file) calls).1.lockstep = true ∧
    (∀ name, mapFind (runCalls (MetricsSystem.new, file) calls).1.bootMetrics name = none ↔
      mapFind (runCalls (MetricsSystem.new, file) calls).1.metrics name = none) ∧
    (∀ name info v,
      mapFind (runCalls (MetricsSystem.new, file) calls).1.metrics name = some info →
      mapFind (runCalls (MetricsSystem.new, file) calls).1.bootMetrics name = some v →
      v.payload.type = some info.type) := by
  have h := consistent_runCalls calls (MetricsSystem.new, file) consistent_new
  exact ⟨lockstep_of_consistent _ h, h.2.1, h.2.2⟩

end Esp32Mcp

namespace Esp32Mcp

open MetricsSystem

/-! ## Loading and resetting -/

/-- C14 as stated fails: the catalog holds the counter `x`; the file holds a
document with the one gauge `y` and no block. `loadBootMetrics` returns false,
and the catalog now holds `y` and no longer `x`. -/
theorem loadBootMetrics_not_atomic_counterexample :
    ((MetricsSystem.new.registerMetric "x" MetricType.COUNTER "a counter" 1).loadBootMetrics
      (some { document := some [("y", MetricType.GAUGE, "a gauge")], block := false })
      []).1 = false ∧
    ((MetricsSystem.new.registerMetric "x" MetricType.COUNTER "a counter" 1).loadBootMetrics
      (some { document := some [("y", MetricType.GAUGE, "a gauge")], block := false })
      []).2.metrics ≠
      (MetricsSystem.new.registerMetric "x" MetricType.COUNTER "a counter" 1).metrics ∧
    mapFind ((MetricsSystem.new.registerMetric "x" MetricType.COUNTER "a counter"
      1).loadBootMetrics
      (some { document := some [("y", MetricType.GAUGE, "a gauge")], block := false })
      []).2.metrics "x" = none ∧
    mapFind ((MetricsSystem.new.registerMetric "x" MetricType.COUNTER "a counter"
      1).loadBootMetrics
      (some { document := some [("y", MetricType.GAUGE, "a gauge")], block := false })
      []).2.metrics "y" =
      some { name := "y", type := MetricType.GAUGE, description := "a gauge" } := by
  decide

/-- C14 amended: when `loadBootMetrics` returns false, the boot snapshot and the
sink are as before the call. When the file is missing or its document does not
parse, the catalog is as before too and the whole state is unchanged; when the
document parses and the read of the block fails, the catalog has been replaced
by the entries of the document and stays so. -/
theorem loadBootMetrics_failure (st : MetricsSystem) (file : Option BootFile)
    (raw : List (String × MetricValue))
    (hfail : (st.loadBootMetrics file raw).1 = false) :
    (st.loadBootMetrics file raw).2.bootMetrics = st.bootMetrics ∧
    (st.loadBootMetrics file raw).2.logger = st.logger ∧
    ((file = none ∨ ∃ f, file = some f ∧ f.document = none) →
      (st.loadBootMetrics file raw).2 = st) ∧
    (∀ f pairs, file = some f → f.document = some pairs →
      (st.loadBootMetrics file raw).2.metrics = catalogOfDocument [] pairs) := by
  cases file with
  | none => simp [loadBootMetrics]
  | some f =>
    cases hd : f.document with
    | none =>
      refine ⟨by simp [loadBootMetrics, hd], by simp [loadBootMetrics, hd],
        by simp [loadBootMetrics, hd], ?_⟩
      intro f1 pairs1 hf hd1
      simp only [Option.some.injEq] at hf
      rw [← hf, hd] at hd1
      exact Option.noConfusion hd1
    | some pairs =>
      cases hb : f.block with
      | true => simp [loadBootMetrics, hd, hb] at hfail
      | false =>
        refine ⟨by simp [loadBootMetrics, hd, hb], by simp [loadBootMetrics, hd, hb],
          ?_, ?_⟩
        · rintro (h | ⟨f1, hf, hd1⟩)
          · exact Option.noConfusion h
          · simp only [Option.some.injEq] at hf
            rw [← hf, hd] at hd1
            exact Option.noConfusion hd1
        · intro f1 pairs1 hf hd1
          simp only [Option.some.injEq] at hf
          rw [← hf, hd] at hd1
          simp only [Option.some.injEq] at hd1
          simp [loadBootMetrics, hd, hb, hd1]

/-- C14 amended, at the input of the counterexample and at a missing file. -/
theorem loadBootMetrics_failure_witness :
    ((MetricsSystem.new.registerMetric "x" MetricType.COUNTER "a counter" 1).loadBootMetrics
      (some { document := some [("y", MetricType.GAUGE, "a gauge")], block := false })
      []).2.bootMetrics =
      (MetricsSystem.new.registerMetric "x" MetricType.COUNTER "a counter" 1).bootMetrics ∧
    ((MetricsSystem.new.registerMetric "x" MetricType.COUNTER "a counter" 1).loadBootMetrics
      none []).2 = MetricsSystem.new.registerMetric "x" MetricType.COUNTER "a counter" 1 :=
  ⟨(loadBootMetrics_failure
      (MetricsSystem.new.registerMetric "x" MetricType.COUNTER "a counter" 1)
      (some { document := some [("y", MetricType.GAUGE, "a gauge")], block := false })
      [] (by decide)).1,
    (loadBootMetrics_failure
      (MetricsSystem.new.registerMetric "x" MetricType.COUNTER "a counter" 1)
      none [] (by decide)).2.2.1 (Or.inl rfl)⟩

theorem mapKeys_resetLoop (now : Nat) (cat : List (String × MetricInfo)) :
    ∀ boot : List (String × MetricValue), (mapKeys cat).Nodup →
      (∀ k ∈ mapKeys cat, k ∉ mapKeys boot) →
      mapKeys (resetLoop now boot cat) = mapKeys boot ++ mapKeys cat := by
  induction cat with
  | nil => intro boot _ _; simp [resetLoop, mapKeys]
  | cons e rest ih =>
    intro boot hnd hnew
    obtain ⟨k, info⟩ := e
    simp only [mapKeys, List.map_cons, List.nodup_cons, List.mem_cons,
      forall_eq_or_imp] at hnd hnew
    have hk := mapKeys_mapInsert_absent boot k
      ({ timestamp := now, payload := zeroPayload info.type } : MetricValue) hnew.1
    have hrest := ih
      (mapInsert boot k { timestamp := now, payload := zeroPayload info.type }) hnd.2
      (by
        intro k2 hk2
        rw [hk]
        simp only [List.mem_append, List.mem_singleton, not_or]
        refine ⟨hnew.2 k2 hk2, ?_⟩
        intro he
        exact hnd.1 (he ▸ hk2))
    simp only [resetLoop]
    rw [hrest, hk]
    simp [mapKeys]

end Esp32Mcp

namespace Esp32Mcp

open MetricsSystem

end Esp32Mcp

namespace Esp32Mcp

open MetricsSystem

/-! ## The built-in metrics -/

theorem registerAll_append (l1 : List (String × MetricType × String × Nat)) :
    ∀ (st : MetricsSystem) (l2 : List (String × MetricType × String × Nat)),
      registerAll st (l1 ++ l2) = registerAll (registerAll st l1) l2 := by
  induction l1 with
  | nil => intro st l2; rfl
  | cons r rest ih =>
    intro st l2
    obtain ⟨name, type, description, now⟩ := r
    simp only [List.cons_append, registerAll]
    exact ih _ l2

theorem mapSize_le_mapInsert {V : Type} (m : List (String × V)) (k : String) (v : V) :
    mapSize m ≤ mapSize (mapInsert m k v) := by
  induction m with
  | nil => simp [mapInsert, mapSize]
  | cons e rest ih =>
    obtain ⟨k0, v0⟩ := e
    by_cases h0 : k0 = k
    · simp [mapInsert, mapSize, h0]
    · simp only [mapSize] at ih
      simp [mapInsert, mapSize, h0, ih]

theorem mapSize_le_registerMetric (st : MetricsSystem) (name : String) (type : MetricType)
    (description : String) (now : Nat) :
    mapSize st.metrics ≤ mapSize (st.registerMetric name type description now).metrics := by
  unfold registerMetric
  split_ifs
  · exact le_refl _
  · exact mapSize_le_mapInsert _ _ _

theorem mapSize_dropLast_registerAll (st : MetricsSystem)
    (l : List (String × MetricType × String × Nat)) :
    mapSize (registerAll st l.dropLast).metrics ≤ mapSize (registerAll st l).metrics := by
  rcases List.eq_nil_or_concat l with h | ⟨l1, r, h⟩
  · rw [h]; exact le_refl _
  · rw [h, List.concat_eq_append, List.dropLast_concat, registerAll_append]
    obtain ⟨name, type, description, now⟩ := r
    simp only [registerAll]
    exact mapSize_le_registerMetric _ _ _ _ _

/-- When the catalog has room at each registration of a list of pairwise
distinct names, every one of them is in the catalog afterwards with its type
and description, and has a zero boot-snapshot entry. -/
theorem registerAll_entries (st : MetricsSystem)
    (regs : List (String × MetricType × String × Nat)) :
    (regs.map Prod.fst).Nodup →
    mapSize (registerAll st regs.dropLast).metrics < 50 →
    ∀ r ∈ regs,
      mapFind (registerAll st regs).metrics r.1 =
        some { name := r.1, type := r.2.1, description := r.2.2.1 } ∧
      mapFind (registerAll st regs).bootMetrics r.1 =
        some { timestamp := r.2.2.2, payload := zeroPayload r.2.1 } := by
  induction regs using List.reverseRecOn with
  | nil => intro _ _ r hr; simp at hr
  | append_singleton l a ih =>
    intro hnd hroom r hr
    rw [List.dropLast_concat] at hroom
    have hprev : mapSize (registerAll st l.dropLast).metrics < 50 :=
      lt_of_le_of_lt (mapSize_dropLast_registerAll st l) hroom
    rw [List.map_append, List.nodup_append] at hnd
    obtain ⟨name, type, description, now⟩ := a
    have hstep : registerAll st (l ++ [(name, type, description, now)]) =
        (registerAll st l).registerMetric name type description now := by
      rw [registerAll_append]; rfl
    rw [hstep, registerMetric_accepted _ name type description now
      (by simp only [MAX_METRICS]; exact hroom)]
    rcases List.mem_append.mp hr with hl | hl
    · have hne : name ≠ r.1 := by
        intro he
        exact hnd.2.2 (List.mem_map_of_mem Prod.fst hl) (by simp [he])
      obtain ⟨i1, i2⟩ := ih hnd.1 hprev r hl
      simp only [mapFind_mapInsert, hne, if_false]
      exact ⟨i1, i2⟩
    · simp only [List.mem_singleton] at hl
      subst hl
      simp [mapFind_mapInsert_self]

/-- C17 as stated fails: the catalog of `fullState` holds the 50 counters
`m0 .. m49`; `initializeSystemMetrics` changes nothing, and none of the built-in
names, `system.requests.total` for one, gets into either map. -/
theorem initializeSystemMetrics_full_catalog_counterexample :
    mapSize fullState.metrics = 50 ∧
    fullState.initializeSystemMetrics 99 = fullState ∧
    mapFind (fullState.initializeSystemMetrics 99).metrics "system.requests.total" = none ∧
    mapFind (fullState.initializeSystemMetrics 99).bootMetrics "system.requests.total"
      = none ∧
    (∀ e ∈ builtinMetrics,
      mapFind (fullState.initializeSystemMetrics 99).metrics e.1 = none) := by
  set_option maxRecDepth 100000 in decide

/-- C17 amended: built-in registration is subject to the cap. When the catalog
still holds fewer than 50 entries as the eighth built-in is registered (so
also at the seven registrations before it; at most 42 entries beforehand is
enough), then after `initializeSystemMetrics` the catalog holds all eight
built-in names with their types and descriptions, and the boot-snapshot entry
of each is the zero of its type, whatever was stored before. When the catalog
already holds 50 entries, `initializeSystemMetrics` changes nothing. -/
theorem initializeSystemMetrics_effect (st : MetricsSystem) (now : Nat) :
    (mapSize (registerAll st (builtinRegistrations 7 now)).metrics < 50 →
      ∀ e ∈ builtinMetrics,
        mapFind (st.initializeSystemMetrics now).metrics e.1 =
          some { name := e.1, type := e.2.1, description := e.2.2 } ∧
        mapFind (st.initializeSystemMetrics now).bootMetrics e.1 =
          some { timestamp := now, payload := zeroPayload e.2.1 }) ∧
    (mapSize st.metrics ≤ 42 →
      mapSize (registerAll st (builtinRegistrations 7 now)).metrics < 50) ∧
    (50 ≤ mapSize st.metrics → st.initializeSystemMetrics now = st) := by
  refine ⟨?_, ?_, ?_⟩
  · intro hroom e he
    have hinit : st.initializeSystemMetrics now =
        registerAll st (builtinRegistrations 8 now) := rfl
    have hnd : ((builtinRegistrations 8 now).map Prod.fst).Nodup := by
      simp [builtinRegistrations, builtinMetrics]
    have hdrop : (builtinRegistrations 8 now).dropLast = builtinRegistrations 7 now := rfl
    have hmem : (e.1, e.2.1, e.2.2, now) ∈ builtinRegistrations 8 now := by
      simp only [builtinRegistrations, List.mem_map]
      exact ⟨e, by simpa [builtinMetrics] using he, rfl⟩
    rw [hinit]
    exact registerAll_entries st (builtinRegistrations 8 now) hnd (by rw [hdrop]; exact hroom)
      (e.1, e.2.1, e.2.2, now) hmem
  · intro h
    have step : ∀ (s : MetricsSystem) (n : String) (ty : MetricType) (d : String),
        mapSize (s.registerMetric n ty d now).metrics ≤ mapSize s.metrics + 1 := by
      intro s n ty d
      unfold registerMetric
      split_ifs
      · omega
      · exact mapSize_mapInsert_le _ _ _
    simp only [builtinRegistrations, builtinMetrics, List.take, List.map, registerAll]
    have h1 := step st "system.requests.total" MetricType.COUNTER "Total handled requests"
    have h2 := step _ "system.requests.errors" MetricType.COUNTER "Request errors" |>.trans
      (Nat.add_le_add_right h1 1)
    have h3 := step _ "system.requests.timeouts" MetricType.COUNTER "Request timeouts" |>.trans
      (Nat.add_le_add_right h2 1)
    have h4 := step _ "system.requests.duration" MetricType.HISTOGRAM
      "Request handling duration (ms)" |>.trans (Nat.add_le_add_right h3 1)
    have h5 := step _ "system.heap.free" MetricType.GAUGE "Free heap memory" |>.trans
      (Nat.add_le_add_right h4 1)
    have h6 := step _ "system.heap.min" MetricType.GAUGE "Minimum free heap memory" |>.trans
      (Nat.add_le_add_right h5 1)
    have h7 := step _ "system.wifi.signal" MetricType.GAUGE "WiFi signal strength (dBm)"
      |>.trans (Nat.add_le_add_right h6 1)
    omega
  · intro h
    have noop : ∀ (n : String) (ty : MetricType) (d : String),
        st.registerMetric n ty d now = st := by
      intro n ty d
      simp [registerMetric, MAX_METRICS, h]
    simp only [initializeSystemMetrics, noop]

/-- C17 amended, at a new object (all eight built-ins registered and zero at the
time 3) and at `fullState` (nothing changes). -/
theorem initializeSystemMetrics_effect_witness :
    mapFind (MetricsSystem.new.initializeSystemMetrics 3).metrics "system.uptime" =
      some { name := "system.uptime", type := MetricType.GAUGE,
             description := "System uptime (ms)" } ∧
    mapFind (MetricsSystem.new.initializeSystemMetrics 3).bootMetrics "system.uptime" =
      some { timestamp := 3, payload := Payload.gauge 0 } ∧
    fullState.initializeSystemMetrics 99 = fullState :=
  have h := (initializeSystemMetrics_effect MetricsSystem.new 3).1 (by decide)
    ("system.uptime", MetricType.GAUGE, "System uptime (ms)") (by decide)
  ⟨h.1, h.2,
    (initializeSystemMetrics_effect fullState 99).2.2
      (by set_option maxRecDepth 100000 in decide)⟩

end Esp32Mcp

namespace Esp32Mcp

open MetricsSystem

end Esp32Mcp

namespace Esp32Mcp

open MetricsSystem

/-! ## The frame of an accepted update -/

theorem queryMetrics_logMetric_other (log : List (String × MetricValue))
    (name other : String) (v : MetricValue) (h : other ≠ name) :
    queryMetrics (logMetric log name v) other = queryMetrics log other :=
  queryMetrics_logMetric_ne log name other v (Ne.symm h)

/-- The frame of a write to the boot-snapshot entry of a name that has one. -/
theorem write_frame (st : MetricsSystem) (name : String) (entry sample : MetricValue)
    (hb : mapFind st.bootMetrics name ≠ none) :
    mapKeys (mapInsert st.bootMetrics name entry) = mapKeys st.bootMetrics ∧
    (∀ other : String, other ≠ name →
      mapFind (mapInsert st.bootMetrics name entry) other = mapFind st.bootMetrics other ∧
      queryMetrics (logMetric st.logger name sample) other = queryMetrics st.logger other) :=
  ⟨mapKeys_mapInsert_present _ _ _ hb, fun _ hne =>
    ⟨mapFind_mapInsert_ne _ _ _ _ (Ne.symm hne),
      queryMetrics_logMetric_other _ _ _ _ hne⟩⟩

/-- C20: an accepted update touches only its own metric. In a state in lockstep,
for a name registered with the type of the operation, each of
`incrementCounter`, `setGauge` and `recordHistogram` leaves the catalog as it
is, leaves the key set of the boot snapshot as it is, and leaves the
boot-snapshot entry and the sink samples of every other name as they are. -/
theorem accepted_update_frame (st : MetricsSystem) (name : String) (d : Int) (g v : Rat)
    (now : Nat) (hlock : st.lockstep = true) :
    ((∃ info, mapFind st.metrics name = some info ∧ info.type = MetricType.COUNTER) →
      (st.incrementCounter name d now).metrics = st.metrics ∧
      mapKeys (st.incrementCounter name d now).bootMetrics = mapKeys st.bootMetrics ∧
      (∀ other : String, other ≠ name →
        mapFind (st.incrementCounter name d now).bootMetrics other =
          mapFind st.bootMetrics other ∧
        queryMetrics (st.incrementCounter name d now).logger other =
          queryMetrics st.logger other)) ∧
    ((∃ info, mapFind st.metrics name = some info ∧ info.type = MetricType.GAUGE) →
      (st.setGauge name g now).metrics = st.metrics ∧
      mapKeys (st.setGauge name g now).bootMetrics = mapKeys st.bootMetrics ∧
      (∀ other : String, other ≠ name →
        mapFind (st.setGauge name g now).bootMetrics other = mapFind st.bootMetrics other ∧
        queryMetrics (st.setGauge name g now).logger other =
          queryMetrics st.logger other)) ∧
    ((∃ info, mapFind st.metrics name = some info ∧ info.type = MetricType.HISTOGRAM) →
      (st.recordHistogram name v now).metrics = st.metrics ∧
      mapKeys (st.recordHistogram name v now).bootMetrics = mapKeys st.bootMetrics ∧
      (∀ other : String, other ≠ name →
        mapFind (st.recordHistogram name v now).bootMetrics other =
          mapFind st.bootMetrics other ∧
        queryMetrics (st.recordHistogram name v now).logger other =
          queryMetrics st.logger other)) := by
  have hboot : ∀ info, mapFind st.metrics name = some info →
      mapFind st.bootMetrics name ≠ none := by
    intro info hi
    obtain ⟨b, hb, _⟩ := lockstep_entry st name info hlock hi
    rw [hb]; exact Option.noConfusion
  refine ⟨?_, ?_, ?_⟩
  · rintro ⟨info, hi, hty⟩
    rw [incrementCounter_accepted st name d now (hasType_eq_true st name _ ⟨info, hi, hty⟩)]
    exact ⟨rfl, write_frame st name _ _ (hboot info hi)⟩
  · rintro ⟨info, hi, hty⟩
    rw [setGauge_accepted st name g now (hasType_eq_true st name _ ⟨info, hi, hty⟩)]
    exact ⟨rfl, write_frame st name _ _ (hboot info hi)⟩
  · rintro ⟨info, hi, hty⟩
    rw [recordHistogram_accepted st name v now (hasType_eq_true st name _ ⟨info, hi, hty⟩)]
    exact ⟨rfl, write_frame st name _ _ (hboot info hi)⟩

/-- C20 at `fullState`: `incrementCounter("m1", 2)` leaves the catalog, the key
set of the boot snapshot, and the entry and the samples of `m0` as they are. -/
theorem accepted_update_frame_witness :
    fullState.lockstep = true ∧
    (fullState.incrementCounter "m1" 2 70).metrics = fullState.metrics ∧
    mapKeys (fullState.incrementCounter "m1" 2 70).bootMetrics =
      mapKeys fullState.bootMetrics ∧
    mapFind (fullState.incrementCounter "m1" 2 70).bootMetrics "m0" =
      mapFind fullState.bootMetrics "m0" ∧
    queryMetrics (fullState.incrementCounter "m1" 2 70).logger "m0" =
      queryMetrics fullState.logger "m0" := by
  have hlock : fullState.lockstep = true := by
    set_option maxRecDepth 100000 in decide
  have h := (accepted_update_frame fullState "m1" 2 0 0 70 hlock).1
    ⟨{ name := "m1", type := MetricType.COUNTER, description := "a counter" },
      by set_option maxRecDepth 100000 in decide, rfl⟩
  exact ⟨hlock, h.1, h.2.1, (h.2.2 "m0" (by decide)).1, (h.2.2 "m0" (by decide)).2⟩

end Esp32Mcp

namespace Esp32Mcp

open MetricsSystem

/-! ## Calls that hold the lock and call a member function that takes it -/

/-- Whatever the state, the file and the file system: `resetBootMetrics`, called by
a thread that does not hold the lock, rebuilds the boot snapshot and then
waits at line 255 for the lock it took at line 329; the file is as before. -/
theorem resetBootMetrics_blocked (st : MetricsSystem) (file : Option BootFile) (now : Nat)
    (out : SaveOutcome) :
    st.resetBootMetrics false file now out =
      Run.blocked ({ st with bootMetrics := resetLoop now [] st.metrics }, file) := by
  rfl

/-- Whatever the state, the file and the file system: `clearHistory`, called by a
thread that does not hold the lock, clears the sink and then waits at line 329
for the lock it took at line 356; the two maps and the file are as before. -/
theorem clearHistory_blocked (st : MetricsSystem) (file : Option BootFile) (now : Nat)
    (out : SaveOutcome) :
    st.clearHistory false file now out = Run.blocked ({ st with logger := [] }, file) := by
  rfl

/-- Whatever the state, the readings and the clock: `updateSystemMetrics`, called
by a thread that does not hold the lock, waits at line 135, in its first call
of `setGauge`, for the lock it took at line 234; nothing has changed. -/
theorem updateSystemMetrics_blocked (st : MetricsSystem) (file : Option BootFile)
    (env : SystemReadings) (t now : Nat) (out : SaveOutcome) :
    st.updateSystemMetrics false file env t now out = Run.blocked (st, file) := by
  cases hc : env.connected <;>
    simp [updateSystemMetrics, lockGuard, setGaugeCall, Run.andThen, hc]

/-- C15, the code at the failing input. `fullState` holds the counter `m0` at 5
and there is no file; `resetBootMetrics` at time 90, with a file system that
would take the write, does not return: it has set `m0` to 0 in memory, the
catalog is as before, and the file is still missing, so the reset snapshot
has not been persisted. -/
theorem resetBootMetrics_never_persists :
    fullState.resetBootMetrics false none 90 SaveOutcome.saved =
      Run.blocked ({ fullState with bootMetrics := resetLoop 90 [] fullState.metrics }, none) ∧
    (fullState.resetBootMetrics false none 90 SaveOutcome.saved).state.1.metrics =
      fullState.metrics ∧
    mapFind (fullState.resetBootMetrics false none 90 SaveOutcome.saved).state.1.bootMetrics
      "m0" = some { timestamp := 90, payload := Payload.counter 0 } ∧
    (fullState.resetBootMetrics false none 90 SaveOutcome.saved).state.2 = none ∧
    (fullState.saveBootMetrics none SaveOutcome.saved).1 = true := by
  set_option maxRecDepth 100000 in decide

/-- C16, the code at the failing input. `fullState` holds the counter `m0` at 5
with one sample in the sink; `clearHistory` at time 90 does not return: the
sink is empty, but the boot snapshot has not been reset, `m0` is still at 5
and `getMetric("m0", true)` still reads 5. -/
theorem clearHistory_never_resets :
    fullState.clearHistory false none 90 SaveOutcome.saved =
      Run.blocked ({ fullState with logger := [] }, none) ∧
    (fullState.clearHistory false none 90 SaveOutcome.saved).state.1.logger = [] ∧
    mapFind fullState.metrics "m0" =
      some { name := "m0", type := MetricType.COUNTER, description := "a counter" } ∧
    mapFind (fullState.clearHistory false none 90 SaveOutcome.saved).state.1.bootMetrics
      "m0" = some { timestamp := 0, payload := Payload.counter 5 } ∧
    ((fullState.clearHistory false none 90 SaveOutcome.saved).state.1.getMetric
      "m0" true 95).1.counter = 5 := by
  set_option maxRecDepth 100000 in decide

/-- C18, the code at the failing input. On a new object with the built-in metrics
registered at time 0, `lastSaveTime` is 0; `updateSystemMetrics` at the clock
reading 70000, an elapsed time of 70000 ms and more than the interval, does
not return: no gauge has been set, the file has not been written and
`lastSaveTime` is still 0. -/
theorem updateSystemMetrics_never_saves :
    (MetricsSystem.new.initializeSystemMetrics 0).lastSaveTime = 0 ∧
    SAVE_INTERVAL < uint32Sub 70000 (MetricsSystem.new.initializeSystemMetrics 0).lastSaveTime ∧
    (MetricsSystem.new.initializeSystemMetrics 0).updateSystemMetrics false none
      { connected := true, rssi := -60, freeHeap := 1000, minFreeHeap := 900 }
      70000 70000 SaveOutcome.saved =
      Run.blocked (MetricsSystem.new.initializeSystemMetrics 0, none) ∧
    ((MetricsSystem.new.initializeSystemMetrics 0).updateSystemMetrics false none
      { connected := true, rssi := -60, freeHeap := 1000, minFreeHeap := 900 }
      70000 70000 SaveOutcome.saved).state.1.lastSaveTime = 0 ∧
    ((MetricsSystem.new.initializeSystemMetrics 0).updateSystemMetrics false none
      { connected := true, rssi := -60, freeHeap := 1000, minFreeHeap := 900 }
      70000 70000 SaveOutcome.saved).state.2 = none := by
  refine ⟨rfl, by decide, updateSystemMetrics_blocked _ _ _ _ _ _, ?_, ?_⟩
  · rw [updateSystemMetrics_blocked]; rfl
  · rw [updateSystemMetrics_blocked]; rfl

end Esp32Mcp

namespace Esp32Mcp

open MetricsSystem

/-! ## Order of the histogram statistics in `double` arithmetic -/

theorem recordHistogramDouble_accepted (st : MetricsSystem) (name : String) (value : Rat)
    (now : Nat) (h : st.hasType name MetricType.HISTOGRAM = true) :
    st.recordHistogramDouble name value now =
      { st with
        bootMetrics := mapInsert st.bootMetrics name
          { mapIndex st.bootMetrics name with
            payload := Payload.histogram
              (recordIntoDouble (mapIndex st.bootMetrics name).histogram value) }
        logger := logMetric st.logger name (histogramSample (value, now)) } := by
  simp [recordHistogramDouble, h, histogramSample]

theorem recordAllDouble_run (name : String) (calls : List (Rat × Nat)) :
    ∀ (s : MetricsSystem) (t : Nat) (h : Histogram),
      s.hasType name MetricType.HISTOGRAM = true →
      mapFind s.bootMetrics name = some { timestamp := t, payload := Payload.histogram h } →
      (recordAllDouble s name calls).metrics = s.metrics ∧
      mapFind (recordAllDouble s name calls).bootMetrics name =
        some { timestamp := t,
               payload := Payload.histogram
                 ((calls.map Prod.fst).foldl recordIntoDouble h) } := by
  induction calls with
  | nil => intro s t h _ hb; simp [recordAllDouble, hb]
  | cons c rest ih =>
    intro s t h hty hb
    obtain ⟨v, now⟩ := c
    have hstep := recordHistogramDouble_accepted s name v now hty
    have hidx : mapIndex s.bootMetrics name =
        { timestamp := t, payload := Payload.histogram h } := by simp [mapIndex, hb]
    have hty2 :
        (s.recordHistogramDouble name v now).hasType name MetricType.HISTOGRAM = true := by
      rw [hasType_of_metrics_eq _ s name _ (by rw [hstep]), hty]
    have hb2 : mapFind (s.recordHistogramDouble name v now).bootMetrics name =
        some { timestamp := t, payload := Payload.histogram (recordIntoDouble h v) } := by
      rw [hstep]
      simp [mapFind_mapInsert_self, hidx, MetricValue.histogram]
    obtain ⟨m1, m2⟩ :=
      ih (s.recordHistogramDouble name v now) t (recordIntoDouble h v) hty2 hb2
    refine ⟨?_, ?_⟩
    · simp only [recordAllDouble]; rw [m1, hstep]
    · simp only [recordAllDouble]; rw [m2]; simp

/-- The accumulator that `getMetric(name, true)` returns after a histogram has
been registered and recorded into in `double` arithmetic. -/
theorem recordedDouble_boot (st : MetricsSystem) (name description : String) (t0 now : Nat)
    (calls : List (Rat × Nat)) (hcap : mapSize st.metrics < MAX_METRICS) :
    ((recordedDouble st name description t0 calls).getMetric name true now).1.histogram =
      (calls.map Prod.fst).foldl recordIntoDouble Histogram.zero := by
  have hreg := registerMetric_accepted st name MetricType.HISTOGRAM description t0 hcap
  have hty := hasType_registerMetric st name MetricType.HISTOGRAM description t0 hcap
  have hb : mapFind (st.registerMetric name MetricType.HISTOGRAM description t0).bootMetrics
      name = some { timestamp := t0, payload := Payload.histogram Histogram.zero } := by
    rw [hreg]; simp [mapFind_mapInsert_self, zeroPayload]
  obtain ⟨m1, m2⟩ := recordAllDouble_run name calls _ t0 Histogram.zero hty hb
  have hcat : mapFind (recordedDouble st name description t0 calls).metrics name =
      some { name := name, type := MetricType.HISTOGRAM, description := description } := by
    unfold recordedDouble; rw [m1, hreg]; simp [mapFind_mapInsert_self]
  unfold recordedDouble at hcat ⊢
  simp [getMetric, hcat, mapIndex, m2, MetricValue.histogram]

/-- Rounding does not touch `count`, `min` and `max` of the boot accumulator. -/
theorem foldl_recordIntoDouble (vs : List Rat) :
    ∀ h : Histogram, 0 < h.count →
      (vs.foldl recordIntoDouble h).count = h.count + vs.length ∧
      (vs.foldl recordIntoDouble h).min = vs.foldl min h.min ∧
      (vs.foldl recordIntoDouble h).max = vs.foldl max h.max := by
  induction vs using List.reverseRecOn with
  | nil => intro h _; simp
  | append_singleton rest v ih =>
    intro h hc
    obtain ⟨i1, i3, i4⟩ := ih h hc
    have hne : (List.foldl recordIntoDouble h rest).count ≠ 0 := by omega
    simp only [List.foldl_append, List.foldl_cons, List.foldl_nil]
    refine ⟨?_, ?_, ?_⟩
    · simp [recordIntoDouble, i1]; omega
    · simp [recordIntoDouble, hne, i3, stdMin_eq_min]
    · simp [recordIntoDouble, hne, i4, stdMax_eq_max]

/-- Rounding does not touch `count`, `min` and `max` in `calculateHistogram`. -/
theorem histogramLoopDouble_fields (values : List MetricValue) :
    ∀ h : Histogram,
      (histogramLoopDouble h values).count = h.count ∧
      (histogramLoopDouble h values).min =
        (values.map (fun v => v.histogram.value)).foldl min h.min ∧
      (histogramLoopDouble h values).max =
        (values.map (fun v => v.histogram.value)).foldl max h.max := by
  induction values with
  | nil => intro h; simp [histogramLoopDouble]
  | cons v rest ih =>
    intro h
    obtain ⟨i1, i4, i5⟩ := ih
      { h with
        min := stdMin h.min v.histogram.value
        max := stdMax h.max v.histogram.value
        sum := roundDouble (h.sum + v.histogram.value) }
    simp only [histogramLoopDouble, List.map_cons, List.foldl_cons]
    refine ⟨i1, ?_, ?_⟩
    · rw [i4]; simp [stdMin_eq_min]
    · rw [i5]; simp [stdMax_eq_max]

theorem foldl_min_le_foldl_max (v : Rat) (rest : List Rat) :
    rest.foldl min v ≤ rest.foldl max v :=
  le_trans (foldl_min_le rest v v (List.mem_cons_self _ _))
    (le_foldl_max rest v v (List.mem_cons_self _ _))

/-- Checks of `roundDouble`: a value that is a `double` stays as it is; between
two neighbours the nearer one is taken, and the one with the even last bit at a
tie (just above 2^53 the neighbours are 2 apart); below the normal numbers the
step is 2^-1074. -/
theorem roundDouble_checks :
    roundDouble (-7 / 2) = -7 / 2 ∧
    roundDouble (2 ^ 53 + 1) = 2 ^ 53 ∧
    roundDouble (2 ^ 53 + 3) = 2 ^ 53 + 4 ∧
    roundDouble (mkRat 3 (2 ^ 1075)) = mkRat 2 (2 ^ 1075) * 2 ∧
    roundDouble (mkRat 1 (2 ^ 1075)) = 0 ∧
    roundDouble (3 / 10) = 5404319552844595 / 18014398509481984 := by
  decide!

/-- C19 as stated fails in the arithmetic of the code. The `double` nearest to 0.1
is 3602879701896397 / 2^55. Recording it three times into a new histogram `h`
leaves `max` at that value, `sum` at 5404319552844596 / 2^54 (which prints as
0.30000000000000004) and `value` at 7205759403792795 / 2^56 (which prints as
0.10000000000000002): `value` is above `max`, and `value * count` is not
`sum`. `calculateHistogram` on the three samples gives the same. -/
theorem histogram_rounding_counterexample :
    roundDouble (1 / 10) = 3602879701896397 / 36028797018963968 ∧
    ((recordedDouble MetricsSystem.new "h" "a histogram" 1
        [(roundDouble (1 / 10), 2), (roundDouble (1 / 10), 3),
         (roundDouble (1 / 10), 4)]).getMetric "h" true 9).1.histogram =
      { value := 7205759403792795 / 72057594037927936,
        min := 3602879701896397 / 36028797018963968,
        max := 3602879701896397 / 36028797018963968,
        sum := 5404319552844596 / 18014398509481984,
        count := 3 } ∧
    (3602879701896397 / 36028797018963968 : Rat) < 7205759403792795 / 72057594037927936 ∧
    (7205759403792795 / 72057594037927936 : Rat) * ((3 : Nat) : Rat) ≠
      5404319552844596 / 18014398509481984 ∧
    (calculateHistogramDouble
        [histogramSample (roundDouble (1 / 10), 2), histogramSample (roundDouble (1 / 10), 3),
         histogramSample (roundDouble (1 / 10), 4)] 9).histogram =
      { value := 7205759403792795 / 72057594037927936,
        min := 3602879701896397 / 36028797018963968,
        max := 3602879701896397 / 36028797018963968,
        sum := 5404319552844596 / 18014398509481984,
        count := 3 } := by
  set_option maxRecDepth 100000 in decide!

/-- C19 amended: in the arithmetic of the code, for finite samples, the boot
accumulator of a freshly registered histogram after the samples `c, rest` has
`count > 0` and `min <= max`, and so has the result of `calculateHistogram` on
the samples `v0, more`. -/
theorem histogram_min_le_max (st : MetricsSystem) (name description : String)
    (t0 now : Nat) (c : Rat × Nat) (rest : List (Rat × Nat))
    (v0 : MetricValue) (more : List MetricValue)
    (hcap : mapSize st.metrics < MAX_METRICS) :
    0 < ((recordedDouble st name description t0 (c :: rest)).getMetric
      name true now).1.histogram.count ∧
    ((recordedDouble st name description t0 (c :: rest)).getMetric
      name true now).1.histogram.min ≤
    ((recordedDouble st name description t0 (c :: rest)).getMetric
      name true now).1.histogram.max ∧
    0 < (calculateHistogramDouble (v0 :: more) now).histogram.count ∧
    (calculateHistogramDouble (v0 :: more) now).histogram.min ≤
      (calculateHistogramDouble (v0 :: more) now).histogram.max := by
  refine ⟨?_, ?_, ?_, ?_⟩
  · rw [recordedDouble_boot st name description t0 now (c :: rest) hcap]
    simp only [List.map_cons, List.foldl_cons]
    have h1 : 0 < (recordIntoDouble Histogram.zero c.1).count := by simp [recordIntoDouble]
    rw [(foldl_recordIntoDouble (rest.map Prod.fst) _ h1).1]
    omega
  · rw [recordedDouble_boot st name description t0 now (c :: rest) hcap]
    simp only [List.map_cons, List.foldl_cons]
    have h1 : 0 < (recordIntoDouble Histogram.zero c.1).count := by simp [recordIntoDouble]
    obtain ⟨_, i2, i3⟩ := foldl_recordIntoDouble (rest.map Prod.fst) _ h1
    rw [i2, i3]
    have hmin : (recordIntoDouble Histogram.zero c.1).min = c.1 := by
      simp [recordIntoDouble, Histogram.zero]
    have hmax : (recordIntoDouble Histogram.zero c.1).max = c.1 := by
      simp [recordIntoDouble, Histogram.zero]
    rw [hmin, hmax]
    exact foldl_min_le_foldl_max _ _
  · obtain ⟨i1, _, _⟩ := histogramLoopDouble_fields (v0 :: more)
      { value := 0, min := v0.histogram.value, max := v0.histogram.value,
        sum := 0, count := (v0 :: more).length }
    have hc : (calculateHistogramDouble (v0 :: more) now).histogram.count =
        (histogramLoopDouble
          { value := 0, min := v0.histogram.value, max := v0.histogram.value,
            sum := 0, count := (v0 :: more).length } (v0 :: more)).count := rfl
    rw [hc, i1]
    exact Nat.succ_pos _
  · obtain ⟨_, i4, i5⟩ := histogramLoopDouble_fields (v0 :: more)
      { value := 0, min := v0.histogram.value, max := v0.histogram.value,
        sum := 0, count := (v0 :: more).length }
    have hlo : (calculateHistogramDouble (v0 :: more) now).histogram.min =
        (histogramLoopDouble
          { value := 0, min := v0.histogram.value, max := v0.histogram.value,
            sum := 0, count := (v0 :: more).length } (v0 :: more)).min := rfl
    have hhi : (calculateHistogramDouble (v0 :: more) now).histogram.max =
        (histogramLoopDouble
          { value := 0, min := v0.histogram.value, max := v0.histogram.value,
            sum := 0, count := (v0 :: more).length } (v0 :: more)).max := rfl
    rw [hlo, hhi, i4, i5]
    simp only [List.map_cons, List.foldl_cons, min_self, max_self]
    exact foldl_min_le_foldl_max _ _

/-- C19 amended, at the three samples of 0.1 of the counterexample. -/
theorem histogram_min_le_max_witness :
    mapSize MetricsSystem.new.metrics < MAX_METRICS ∧
    ((recordedDouble MetricsSystem.new "h" "a histogram" 1
        [(roundDouble (1 / 10), 2), (roundDouble (1 / 10), 3),
         (roundDouble (1 / 10), 4)]).getMetric "h" true 9).1.histogram.min ≤
    ((recordedDouble MetricsSystem.new "h" "a histogram" 1
        [(roundDouble (1 / 10), 2), (roundDouble (1 / 10), 3),
         (roundDouble (1 / 10), 4)]).getMetric "h" true 9).1.histogram.max :=
  ⟨by decide,
    (histogram_min_le_max MetricsSystem.new "h" "a histogram" 1 9 (roundDouble (1 / 10), 2)
      [(roundDouble (1 / 10), 3), (roundDouble (1 / 10), 4)]
      (histogramSample (roundDouble (1 / 10), 2)) [] (by decide)).2.1⟩

end Esp32Mcp
